import Mathlib

/-!
# ai-killswitch: death receipts and the watch monitor

A shallow embedding of `src/bin/killswitch.js`.

* JavaScript strings are lists of characters (`JSString`), objects are ordered
  lists of key/value pairs in own-property order.
* `JSON.stringify` (with and without the indentation argument) and `JSON.parse`
  are modelled on that value type; the receipt functions `createDeathReceipt`
  and `signDeathReceipt` and the four command actions are transcribed on top.
* The `ethers` wallet is a parameter (`Crypto`); clock readings, the liveness
  probe, `pidusage`, `getProcessInfo` and the outcome of `killProcess` are
  inputs of the models.
-/

namespace Killswitch

/-! ## JavaScript values -/

/-- A JavaScript string.  Strings are taken to be well-formed Unicode (command
line arguments and decoded process output are), so a list of characters. -/
abbrev JSString := List Char

/-- The JavaScript values that occur in receipts and in parsed JSON.  Numbers are
`nan` or an integer (`parseInt` yields nothing else for the PIDs stored in a
receipt); fractional numbers are outside this type. -/
inductive JSVal where
  | undefined
  | null
  | bool (b : Bool)
  | nan
  | num (n : Int)
  | str (s : JSString)
  | arr (xs : List JSVal)
  | obj (fields : List (JSString × JSVal))

/-- An ordinary object: its own enumerable string-keyed properties, in the order
`[[OwnPropertyKeys]]` reports them. -/
abbrev JSObject := List (JSString × JSVal)

/-- ASCII decimal digit test. -/
def isDigit (c : Char) : Bool := decide (48 ≤ c.toNat) && decide (c.toNat ≤ 57)

/-- Accumulating decimal reader: consumes the leading digits of the input. -/
def parseDigits : Nat → List Char → Nat × List Char
  | acc, [] => (acc, [])
  | acc, c :: cs => if isDigit c then parseDigits (10 * acc + (c.toNat - 48)) cs else (acc, c :: cs)

/-- Decimal digit character of `d < 10`. -/
def digitChar (d : Nat) : Char := Char.ofNat (48 + d)

/-- Digits of `n`, most significant first, prepended to `acc` (`fuel` bounds the
number of digits). -/
def natDigitsAux : Nat → Nat → List Char → List Char
  | 0, _, acc => acc
  | fuel + 1, n, acc =>
    if n < 10 then digitChar n :: acc
    else natDigitsAux fuel (n / 10) (digitChar (n % 10) :: acc)

/-- Decimal rendering of a natural number (`Number::toString` on a non-negative
integer). -/
def natDigits (n : Nat) : List Char := natDigitsAux (n + 1) n []

/-- Decimal rendering of an integer (`Number::toString` writes an integer this
way below `10^21`, far above any PID). -/
def renderInt : Int → List Char
  | Int.ofNat n => natDigits n
  | Int.negSucc n => '-' :: natDigits (n + 1)

/-- An array index in the sense of ECMAScript: the canonical decimal string of
an integer below `2^32 - 1`.  Such keys are ordered before all other keys. -/
def arrayIndex? (k : JSString) : Option Nat :=
  match k with
  | [] => none
  | c :: cs =>
    if (c :: cs).all isDigit && (decide (c ≠ '0') || cs.isEmpty)
        && decide ((parseDigits 0 (c :: cs)).1 < 4294967295)
    then some (parseDigits 0 (c :: cs)).1 else none

/-- Whether an object has an own property `k`. -/
def hasProp (o : JSObject) (k : JSString) : Bool := o.any (fun p => decide (p.1 = k))

/-- `CreateDataProperty` / assignment `o[k] = v` on an ordinary object: an
existing property keeps its position, a new array-index key is placed among the
index keys in ascending order, any other new key goes last. -/
def setProp (o : JSObject) (k : JSString) (v : JSVal) : JSObject :=
  if hasProp o k then o.map (fun p => if p.1 = k then (k, v) else p)
  else
    match arrayIndex? k with
    | some i =>
      let isLower : JSString × JSVal → Bool := fun p =>
        match arrayIndex? p.1 with
        | some j => decide (j < i)
        | none => false
      o.takeWhile isLower ++ (k, v) :: o.dropWhile isLower
    | none => o ++ [(k, v)]

/-- Property read `v[k]` for the fixed, non-index, non-inherited keys the program
reads (`signer`, `signature`, `process`, `pid`, ...): the own property of an
object, `undefined` otherwise. -/
def getProp (v : JSVal) (k : JSString) : JSVal :=
  match v with
  | JSVal.obj fields =>
    match fields.find? (fun p => decide (p.1 = k)) with
    | some p => p.2
    | none => JSVal.undefined
  | _ => JSVal.undefined

/-- Own enumerable properties of a value as seen by spread and rest
destructuring: the fields of an object, the indexed elements of an array, the
indexed characters of a string (one code unit each, so characters of the Basic
Multilingual Plane), nothing for the other primitives. -/
def ownEntries (v : JSVal) : JSObject :=
  match v with
  | JSVal.obj fields => fields
  | JSVal.arr xs => xs.enum.map (fun p => (natDigits p.1, p.2))
  | JSVal.str s => s.enum.map (fun p => (natDigits p.1, JSVal.str [p.2]))
  | _ => []

/-- `CopyDataProperties` into a fresh object (object spread `{...o}`). -/
def spread (o : JSObject) : JSObject := o.foldl (fun acc p => setProp acc p.1 p.2) []

/-- Rest destructuring `const { k1, k2, ...rest } = v`: the own enumerable
properties of `v` other than the excluded keys, copied into a fresh object. -/
def restWithout (excluded : List JSString) (v : JSVal) : JSObject :=
  spread ((ownEntries v).filter (fun p => !(excluded.contains p.1)))

/-! ## JSON.stringify -/

/-- Lower-case hexadecimal digit of `n < 16`. -/
def hexDigit (n : Nat) : Char := if n < 10 then Char.ofNat (48 + n) else Char.ofNat (87 + n)

/-- The JSON escape of one character (`QuoteJSONString`): the two-character
escapes, `\u00xx` for the other control characters, the character itself
otherwise. -/
def escapeChar (c : Char) : List Char :=
  if c = '"' then ['\\', '"']
  else if c = '\\' then ['\\', '\\']
  else if c.toNat = 8 then ['\\', 'b']
  else if c.toNat = 12 then ['\\', 'f']
  else if c.toNat = 10 then ['\\', 'n']
  else if c.toNat = 13 then ['\\', 'r']
  else if c.toNat = 9 then ['\\', 't']
  else if c.toNat < 32 then ['\\', 'u', '0', '0', hexDigit (c.toNat / 16), hexDigit (c.toNat % 16)]
  else [c]

/-- The escaped body of a string, without the surrounding quotes. -/
def escapeString : JSString → List Char
  | [] => []
  | c :: cs => escapeChar c ++ escapeString cs

/-- `QuoteJSONString`. -/
def quote (s : JSString) : List Char := '"' :: (escapeString s ++ ['"'])

/-- Assembly of an object or array text from its serialised parts
(`SerializeJSONObject` / `SerializeJSONArray`, final steps): empty brackets when
there are no parts, a comma-separated list when the gap is empty, one part per
line at the new indentation otherwise. -/
def assemble (gap indent : List Char) (opening closing : Char) (parts : List (List Char)) :
    List Char :=
  if parts.isEmpty then [opening, closing]
  else if gap.isEmpty then opening :: ([','].intercalate parts ++ [closing])
  else
    opening :: '\n' :: (indent ++ gap) ++
      ((',' :: '\n' :: (indent ++ gap)).intercalate parts ++ ('\n' :: indent ++ [closing]))

mutual
/-- `SerializeJSONProperty`: `none` stands for the result `undefined`. -/
def serProperty (gap : List Char) : List Char → JSVal → Option (List Char)
  | _, JSVal.undefined => none
  | _, JSVal.null => some "null".toList
  | _, JSVal.bool true => some "true".toList
  | _, JSVal.bool false => some "false".toList
  | _, JSVal.nan => some "null".toList
  | _, JSVal.num n => some (renderInt n)
  | _, JSVal.str s => some (quote s)
  | indent, JSVal.arr xs =>
    some (assemble gap indent '[' ']' (serElements gap (indent ++ gap) xs))
  | indent, JSVal.obj fields =>
    some (assemble gap indent (Char.ofNat 123) (Char.ofNat 125)
      (serMembers gap (indent ++ gap) fields))
/-- Serialised elements of an array; an element without a JSON text is `null`. -/
def serElements (gap : List Char) : List Char → List JSVal → List (List Char)
  | _, [] => []
  | indent, x :: xs =>
    (match serProperty gap indent x with
      | some t => t
      | none => "null".toList) :: serElements gap indent xs
/-- Serialised members of an object; a member whose value has no JSON text is
left out. -/
def serMembers (gap : List Char) : List Char → List (JSString × JSVal) → List (List Char)
  | _, [] => []
  | indent, (k, v) :: rest =>
    match serProperty gap indent v with
    | some t =>
      (quote k ++ (if gap.isEmpty then [':'] else [':', ' ']) ++ t) :: serMembers gap indent rest
    | none => serMembers gap indent rest
end

/-- `JSON.stringify(v)`. -/
def JSON_stringify (v : JSVal) : Option (List Char) := serProperty [] [] v

/-- `JSON.stringify(v, null, 2)`. -/
def JSON_stringify2 (v : JSVal) : Option (List Char) := serProperty [' ', ' '] [] v

/-- `JSON.stringify(o)` for an object `o`, which always yields a string. -/
def stringifyObject (o : JSObject) : List Char :=
  assemble [] [] (Char.ofNat 123) (Char.ofNat 125) (serMembers [] [] o)

/-- `JSON.stringify(o, null, 2)` for an object `o`. -/
def stringifyObject2 (o : JSObject) : List Char :=
  assemble [' ', ' '] [] (Char.ofNat 123) (Char.ofNat 125) (serMembers [' ', ' '] [' ', ' '] o)

/-! ## JSON.parse -/

/-- JSON white space. -/
def isWs (c : Char) : Bool :=
  decide (c = ' ') || decide (c.toNat = 10) || decide (c.toNat = 13) || decide (c.toNat = 9)

/-- Drops leading white space. -/
def skipWs : List Char → List Char
  | [] => []
  | c :: cs => if isWs c then skipWs cs else c :: cs

/-- Value of a hexadecimal digit of either case. -/
def hexVal (c : Char) : Option Nat :=
  if 48 ≤ c.toNat ∧ c.toNat ≤ 57 then some (c.toNat - 48)
  else if 97 ≤ c.toNat ∧ c.toNat ≤ 102 then some (c.toNat - 87)
  else if 65 ≤ c.toNat ∧ c.toNat ≤ 70 then some (c.toNat - 55)
  else none

/-- The code unit written by the four hexadecimal digits of a `\u` escape. -/
def hex4 (a b c d : Char) : Option Nat :=
  match hexVal a, hexVal b, hexVal c, hexVal d with
  | some x, some y, some z, some w => some (((x * 16 + y) * 16 + z) * 16 + w)
  | _, _, _, _ => none

/-- The character denoted by a two-character escape `\e`. -/
def unescape (e : Char) : Option Char :=
  if e = '"' then some '"'
  else if e = '\\' then some '\\'
  else if e = '/' then some '/'
  else if e = 'b' then some (Char.ofNat 8)
  else if e = 'f' then some (Char.ofNat 12)
  else if e = 'n' then some (Char.ofNat 10)
  else if e = 'r' then some (Char.ofNat 13)
  else if e = 't' then some (Char.ofNat 9)
  else none

/-- Reads a JSON string after its opening quote, up to and including the closing
quote; returns the string and the remaining input.  Raw control characters are
a syntax error.  A `\u` escape of a surrogate code unit has no character in
`JSString` and is rejected as well. -/
def parseStringBody : List Char → Option (JSString × List Char)
  | [] => none
  | c :: rest =>
    if c = '"' then some ([], rest)
    else if c = '\\' then
      match rest with
      | [] => none
      | e :: rest1 =>
        if e = 'u' then
          match rest1 with
          | a :: b :: x :: y :: rest2 =>
            match hex4 a b x y with
            | some n =>
              if 55296 ≤ n ∧ n ≤ 57343 then none
              else
                match parseStringBody rest2 with
                | some (s, r) => some (Char.ofNat n :: s, r)
                | none => none
            | none => none
          | _ => none
        else
          match unescape e with
          | some ch =>
            match parseStringBody rest1 with
            | some (s, r) => some (ch :: s, r)
            | none => none
          | none => none
    else if c.toNat < 32 then none
    else
      match parseStringBody rest with
      | some (s, r) => some (c :: s, r)
      | none => none

/-- Reads a JSON number.  Only integers are represented: a fraction or an
exponent part is rejected. -/
def parseNumber (cs : List Char) : Option (Int × List Char) :=
  let neg : Bool := match cs with
    | c :: _ => decide (c = '-')
    | [] => false
  let body : List Char := if neg then cs.drop 1 else cs
  match body with
  | [] => none
  | d :: ds =>
    if isDigit d then
      let r : Nat × List Char := if d = '0' then (0, ds) else parseDigits 0 (d :: ds)
      match r.2 with
      | c :: _ =>
        if c = '.' ∨ c = 'e' ∨ c = 'E' then none
        else some (if neg then -(r.1 : Int) else (r.1 : Int), r.2)
      | [] => some (if neg then -(r.1 : Int) else (r.1 : Int), r.2)
    else none

/-- Reads the literal `lit` from the front of the input. -/
def parseLiteral (lit : List Char) (v : JSVal) (cs : List Char) : Option (JSVal × List Char) :=
  if cs.take lit.length = lit then some (v, cs.drop lit.length) else none

mutual
/-- Reads one JSON value from input that starts at the value (leading white
space already skipped).  `fuel` bounds the number of nested and successive
calls. -/
def parseValue : Nat → List Char → Option (JSVal × List Char)
  | 0, _ => none
  | fuel + 1, cs =>
    match cs with
    | [] => none
    | c :: rest =>
      if c = '"' then
        match parseStringBody rest with
        | some (s, r) => some (JSVal.str s, r)
        | none => none
      else if c.toNat = 123 then
        match skipWs rest with
        | [] => none
        | c2 :: rest2 =>
          if c2.toNat = 125 then some (JSVal.obj [], rest2)
          else parseMembers fuel [] (c2 :: rest2)
      else if c = '[' then
        match skipWs rest with
        | [] => none
        | c2 :: rest2 =>
          if c2 = ']' then some (JSVal.arr [], rest2)
          else parseElements fuel [] (c2 :: rest2)
      else if c = 't' then parseLiteral "true".toList (JSVal.bool true) cs
      else if c = 'f' then parseLiteral "false".toList (JSVal.bool false) cs
      else if c = 'n' then parseLiteral "null".toList JSVal.null cs
      else
        match parseNumber cs with
        | some (n, r) => some (JSVal.num n, r)
        | none => none
/-- Reads the members of an object from input that starts at a member name, up
to and including the closing brace.  Members are defined in source order on the
object built so far. -/
def parseMembers : Nat → JSObject → List Char → Option (JSVal × List Char)
  | 0, _, _ => none
  | fuel + 1, acc, cs =>
    match cs with
    | [] => none
    | c :: rest =>
      if c = '"' then
        match parseStringBody rest with
        | none => none
        | some (k, r1) =>
          match skipWs r1 with
          | [] => none
          | c1 :: r2 =>
            if c1 = ':' then
              match parseValue fuel (skipWs r2) with
              | none => none
              | some (v, r3) =>
                match skipWs r3 with
                | [] => none
                | c3 :: r4 =>
                  if c3 = ',' then parseMembers fuel (setProp acc k v) (skipWs r4)
                  else if c3.toNat = 125 then some (JSVal.obj (setProp acc k v), r4)
                  else none
            else none
      else none
/-- Reads the elements of an array from input that starts at an element, up to
and including the closing bracket. -/
def parseElements : Nat → List JSVal → List Char → Option (JSVal × List Char)
  | 0, _, _ => none
  | fuel + 1, acc, cs =>
    match parseValue fuel cs with
    | none => none
    | some (v, r1) =>
      match skipWs r1 with
      | [] => none
      | c1 :: r2 =>
        if c1 = ',' then parseElements fuel (acc ++ [v]) (skipWs r2)
        else if c1 = ']' then some (JSVal.arr (acc ++ [v]), r2)
        else none
end

/-- `JSON.parse(text)`; `none` stands for the `SyntaxError`.  Well-formed texts
with a value outside `JSVal` (a number with a fraction or an exponent, a `\u`
escape of a surrogate code unit) are not read by this model and give `none` as
well. -/
def JSON_parse (text : List Char) : Option JSVal :=
  match parseValue (text.length + 1) (skipWs text) with
  | some (v, rest) => if (skipWs rest).isEmpty then some v else none
  | none => none

/-! ## Receipts -/

/-- The object `getProcessInfo` resolves with (and the literal built in `wrap`).
`pid` is the result of `parseInt`: an integer, or `none` for `NaN`. -/
structure ProcessInfo where
  pid : Option Int
  name : JSString
  cmd : JSString

/-- A PID as a JavaScript value. -/
def pidValue : Option Int → JSVal
  | some n => JSVal.num n
  | none => JSVal.nan

/-- `createDeathReceipt(processInfo, reason, killer)`; `now` is the value of
`new Date().toISOString()` at the call. -/
def createDeathReceipt (processInfo : ProcessInfo) (reason killer now : JSString) : JSObject :=
  [ ("type".toList, JSVal.str "AI_TERMINATION".toList),
    ("process".toList, JSVal.obj
      [ ("pid".toList, pidValue processInfo.pid),
        ("name".toList, JSVal.str processInfo.name),
        ("cmd".toList, JSVal.str processInfo.cmd) ]),
    ("reason".toList, JSVal.str reason),
    ("timestamp".toList, JSVal.str now),
    ("killer".toList, JSVal.str killer) ]

/-- The part of `ethers` the program uses.  `address key` is
`new ethers.Wallet(key).address` (`none` when the constructor throws on the key),
`signMessage key m` is `wallet.signMessage(m)`, and `verifyMessage m sig` is
`ethers.utils.verifyMessage(m, sig)` (`none` when it throws). -/
structure Crypto where
  address : JSString → Option JSString
  signMessage : JSString → JSString → JSString
  verifyMessage : JSString → JSVal → Option JSString

/-- `signDeathReceipt(receipt, privateKey)`; `none` when the wallet constructor
throws. -/
def signDeathReceipt (C : Crypto) (receipt : JSObject) (privateKey : JSString) :
    Option JSObject :=
  match C.address privateKey with
  | none => none
  | some address =>
    let payload := stringifyObject receipt
    let signature := C.signMessage privateKey payload
    some (setProp (setProp (spread receipt) "signer".toList (JSVal.str address))
      "signature".toList (JSVal.str signature))

/-! ## Effects of a command -/

/-- The console lines of the program, by the statement that prints them. -/
inductive Message where
  | missingKey | targeting | processName | terminated | killFailed | receiptSigned | signerLine
  | timeoutExceeded | endedNaturally | stats | cpuExceeded | memoryExceeded | endedOrInaccessible
  | wrapTimeout
  | valid | killedLine | reasonLine | timeLine | signedByLine | statusLine | invalid
  deriving DecidableEq, Repr

/-- The observable actions of a command, in order of occurrence. -/
inductive Effect where
  | log (m : Message)
  | getProcessInfo (pid : Option Int)
  | killProcess (pid : Option Int)
  | childKill
  | writeFile (path : JSString) (content : List Char)
  | pingCounter (signer : JSString)
  | clearInterval
  | exit (code : Nat)
  deriving DecidableEq, Repr

/-- How an action ends: it returns, it calls `process.exit`, or it throws (for an
`async` action: its promise is rejected and nothing handles it). -/
inductive Ending where
  | returned
  | exited (code : Nat)
  | threw
  deriving DecidableEq, Repr

/-- The effects of a command and the way it ended. -/
structure Run where
  effects : List Effect
  ending : Ending
  deriving DecidableEq, Repr

/-- The string in a value that is a string (used for `receipt.signer`, which
`signDeathReceipt` sets to the wallet address). -/
def stringOf : JSVal → JSString
  | JSVal.str s => s
  | _ => []

/-- JavaScript truthiness of an optional string (`undefined` and the empty
string are falsy). -/
def truthy : Option JSString → Bool
  | some s => !s.isEmpty
  | none => false

/-- The operator `a || b` on optional strings. -/
def jsOr (a b : Option JSString) : Option JSString := if truthy a then a else b

/-- The key lookup shared by `kill`, `watch` and `wrap`:
`opts.key || process.env.KILLSWITCH_KEY || process.env.RECEIPT_KEY`. -/
def resolveKey (optKey envKillswitchKey envReceiptKey : Option JSString) : Option JSString :=
  jsOr (jsOr optKey envKillswitchKey) envReceiptKey

/-- The string behind a truthy key. -/
def keyString : Option JSString → JSString
  | some s => s
  | none => []

/-! ## The kill command -/

/-- What the operating system answers during one `kill` run: the name and
command line `getProcessInfo` finds, whether `killProcess` resolves (`false`:
the signal and the `taskkill` fallback both failed), and the clock reading used
for the timestamp. -/
structure KillWorld where
  name : JSString
  cmd : JSString
  killOk : Bool
  now : JSString

/-- The action of `kill <pid>`.  `pid` is `parseInt(pid)`, `reason` and `out`
are the option values (defaults applied by the option parser). -/
def killCommand (C : Crypto) (optKey envKillswitchKey envReceiptKey : Option JSString)
    (pid : Option Int) (reason out : JSString) (w : KillWorld) : Run :=
  let key := resolveKey optKey envKillswitchKey envReceiptKey
  if !truthy key then
    { effects := [Effect.log Message.missingKey, Effect.exit 1], ending := Ending.exited 1 }
  else
    let processInfo : ProcessInfo := { pid := pid, name := w.name, cmd := w.cmd }
    let pre := [Effect.log Message.targeting, Effect.getProcessInfo pid,
      Effect.log Message.processName]
    match C.address (keyString key) with
    | none => { effects := pre, ending := Ending.threw }
    | some address =>
      let receipt := createDeathReceipt processInfo reason address w.now
      let receipt := setProp receipt "status".toList
        (JSVal.str (if w.killOk then "KILLED".toList else "KILL_FAILED".toList))
      let killed := [Effect.killProcess pid,
        Effect.log (if w.killOk then Message.terminated else Message.killFailed)]
      match signDeathReceipt C receipt (keyString key) with
      | none => { effects := pre ++ killed, ending := Ending.threw }
      | some signedReceipt =>
        { effects := pre ++ killed ++
            [Effect.writeFile out (stringifyObject2 signedReceipt),
             Effect.log Message.receiptSigned, Effect.log Message.signerLine,
             Effect.pingCounter (stringOf (getProp (JSVal.obj signedReceipt) "signer".toList))],
          ending := Ending.returned }

/-! ## The wrap command: the timeout handler -/

/-- The callback of the `setTimeout` in `wrap`: `childPid` is `child.pid`,
`command0` is `command[0]`, `cmd` the joined command line, `reason` the option
value. -/
def wrapTimeout (C : Crypto) (key : Option JSString) (childPid : Int)
    (command0 cmd reason now : JSString) : Run :=
  if truthy key then
    let processInfo : ProcessInfo := { pid := some childPid, name := command0, cmd := cmd }
    let receipt := createDeathReceipt processInfo (reason ++ " (timeout)".toList)
      "system".toList now
    let receipt := setProp receipt "status".toList (JSVal.str "KILLED".toList)
    match signDeathReceipt C receipt (keyString key) with
    | some signedReceipt =>
      { effects := [Effect.log Message.wrapTimeout, Effect.childKill,
          Effect.writeFile "death-receipt.json".toList (stringifyObject2 signedReceipt),
          Effect.log Message.receiptSigned,
          Effect.pingCounter (stringOf (getProp (JSVal.obj signedReceipt) "signer".toList))],
        ending := Ending.returned }
    | none =>
      { effects := [Effect.log Message.wrapTimeout, Effect.childKill], ending := Ending.threw }
  else
    { effects := [Effect.log Message.wrapTimeout, Effect.childKill], ending := Ending.returned }

/-! ## The verify command -/

mutual
/-- Whether interpolating a value in a template literal throws.  Among parsed
JSON values that is an object with an own property `toString` (a JSON value is
never callable, and the inherited `valueOf` returns the object itself), and an
array one of whose elements throws when joined. -/
def toStringThrows : JSVal → Bool
  | JSVal.obj fields => hasProp fields "toString".toList
  | JSVal.arr xs => anyToStringThrows xs
  | _ => false
/-- Whether interpolating some element of the list throws. -/
def anyToStringThrows : List JSVal → Bool
  | [] => false
  | x :: xs => toStringThrows x || anyToStringThrows xs
end

/-- The VALID branch: the VALID line, then the five summary lines.  Reading
`receipt.process.pid` throws when `receipt.process` is `undefined` or `null`;
each line is printed unless an interpolation in it throws. -/
def validSummary (receipt : JSVal) : Run :=
  match getProp receipt "process".toList with
  | JSVal.undefined => { effects := [Effect.log Message.valid], ending := Ending.threw }
  | JSVal.null => { effects := [Effect.log Message.valid], ending := Ending.threw }
  | process =>
    if toStringThrows (getProp process "pid".toList)
        || toStringThrows (getProp process "name".toList) then
      { effects := [Effect.log Message.valid], ending := Ending.threw }
    else if toStringThrows (getProp receipt "reason".toList) then
      { effects := [Effect.log Message.valid, Effect.log Message.killedLine],
        ending := Ending.threw }
    else if toStringThrows (getProp receipt "timestamp".toList) then
      { effects := [Effect.log Message.valid, Effect.log Message.killedLine,
          Effect.log Message.reasonLine],
        ending := Ending.threw }
    else if toStringThrows (getProp receipt "status".toList) then
      { effects := [Effect.log Message.valid, Effect.log Message.killedLine,
          Effect.log Message.reasonLine, Effect.log Message.timeLine,
          Effect.log Message.signedByLine],
        ending := Ending.threw }
    else
      { effects := [Effect.log Message.valid, Effect.log Message.killedLine,
          Effect.log Message.reasonLine, Effect.log Message.timeLine,
          Effect.log Message.signedByLine, Effect.log Message.statusLine],
        ending := Ending.returned }

/-- The payload string the verify action rebuilds:
`JSON.stringify` of the receipt without `signature` and `signer`. -/
def verifyPayload (receipt : JSVal) : List Char :=
  stringifyObject (restWithout ["signature".toList, "signer".toList] receipt)

/-- The verify action on the result of `JSON.parse` (`none`: the parse threw).
`toLowerCase` is `String.prototype.toLowerCase`. -/
def verifyReceipt (C : Crypto) (toLowerCase : JSString → JSString) (parsed : Option JSVal) :
    Run :=
  match parsed with
  | none => { effects := [], ending := Ending.threw }
  | some JSVal.undefined => { effects := [], ending := Ending.threw }
  | some JSVal.null => { effects := [], ending := Ending.threw }
  | some receipt =>
    let signature := getProp receipt "signature".toList
    let signer := getProp receipt "signer".toList
    match C.verifyMessage (verifyPayload receipt) signature with
    | none => { effects := [], ending := Ending.threw }
    | some recovered =>
      match signer with
      | JSVal.str signerStr =>
        if toLowerCase recovered = toLowerCase signerStr then validSummary receipt
        else { effects := [Effect.log Message.invalid, Effect.exit 1], ending := Ending.exited 1 }
      | _ => { effects := [], ending := Ending.threw }

/-- The action of `verify <file>` on the text of the file. -/
def verifyCommand (C : Crypto) (toLowerCase : JSString → JSString) (text : List Char) : Run :=
  verifyReceipt C toLowerCase (JSON_parse text)

/-! ## The watch command -/

/-- A JavaScript number as the comparisons of the program see it: `NaN` (what
`parseFloat` and `parseInt` give for text that is not a number), an infinity, or
a finite value on the rational line (every finite double is one). -/
inductive JSNum where
  | nan
  | negInf
  | fin (q : ℚ)
  | posInf
  deriving DecidableEq

/-- The operator `a > b` on numbers: false as soon as one side is `NaN`. -/
def JSNum.gt : JSNum → JSNum → Bool
  | JSNum.fin a, JSNum.fin b => decide (b < a)
  | JSNum.posInf, JSNum.fin _ => true
  | JSNum.posInf, JSNum.negInf => true
  | JSNum.fin _, JSNum.negInf => true
  | _, _ => false

/-- The operator `a <= b` on numbers: false as soon as one side is `NaN`. -/
def JSNum.le : JSNum → JSNum → Bool
  | JSNum.nan, _ => false
  | _, JSNum.nan => false
  | JSNum.negInf, _ => true
  | _, JSNum.posInf => true
  | JSNum.fin a, JSNum.fin b => decide (a ≤ b)
  | _, _ => false

/-- The product `x * k` for a positive constant `k`; `NaN` and the infinities
are kept, a finite value is multiplied exactly (the double product is exact for
the power of two `1024` short of overflow). -/
def JSNum.times (x : JSNum) (k : ℚ) : JSNum :=
  match x with
  | JSNum.fin q => JSNum.fin (q * k)
  | other => other

/-- The quotient `x / k` for a positive constant `k`, as `JSNum.times`. -/
def JSNum.over (x : JSNum) (k : ℚ) : JSNum :=
  match x with
  | JSNum.fin q => JSNum.fin (q / k)
  | other => other

/-- The values fixed when `watch` starts: the resolved key, `parseInt(pid)`,
`cpuLimit = parseFloat(opts.cpu)`, `memoryLimitMB = parseFloat(opts.memory)`,
`startTime = Date.now()` and `timeout = parseInt(opts.timeout) * 1000`.  The
parsed options are `NaN` when the option text is not a number. -/
structure WatchConfig where
  key : Option JSString
  targetPid : Option Int
  cpuLimit : JSNum
  memoryLimitMB : JSNum
  startTime : ℤ
  timeout : JSNum

/-- `memoryLimitBytes = memoryLimitMB * 1024 * 1024`. -/
def WatchConfig.memoryLimitBytes (cfg : WatchConfig) : JSNum :=
  (cfg.memoryLimitMB.times 1024).times 1024

/-- `Date.now() - startTime` at the clock reading `now`. -/
def WatchConfig.elapsed (cfg : WatchConfig) (now : ℤ) : JSNum :=
  JSNum.fin ((now - cfg.startTime : ℤ) : ℚ)

/-- The fields of a `pidusage` result that the tick reads. -/
structure Stats where
  cpu : JSNum
  memory : JSNum

/-- Number formatting of the runtime: interpolation of a number in a template
literal and `toFixed(1)`. -/
structure NumFormat where
  toStr : JSNum → JSString
  toFixed1 : JSNum → JSString

/-- The reason passed to `terminateWithReceipt` by the CPU check. -/
def cpuReason (F : NumFormat) (cfg : WatchConfig) (st : Stats) : JSString :=
  "CPU exceeded ".toList ++ F.toStr cfg.cpuLimit ++ "% (was ".toList ++ F.toFixed1 st.cpu ++
    "%)".toList

/-- The reason passed to `terminateWithReceipt` by the memory check. -/
def memoryReason (F : NumFormat) (cfg : WatchConfig) (st : Stats) : JSString :=
  "Memory exceeded ".toList ++ F.toStr cfg.memoryLimitMB ++ "MB (was ".toList ++
    F.toFixed1 ((st.memory.over 1024).over 1024) ++ "MB)".toList

/-- What one tick of the interval callback decides. -/
inductive TickOutcome where
  | timeoutTriggered (reason : JSString)
  | naturalExit
  | thresholdTriggered (reason : JSString)
  | samplerError
  | noTrigger
  deriving DecidableEq, Repr

/-- The synchronous head of a tick: the timeout check against the clock reading
`now`, then the liveness probe (`alive` is false when `process.kill(pid, 0)`
throws).  `none`: the tick goes on to `await pidusage(targetPid)`. -/
def tickStart (cfg : WatchConfig) (now : ℤ) (alive : Bool) : Option TickOutcome :=
  if JSNum.gt (cfg.elapsed now) cfg.timeout then
    some (TickOutcome.timeoutTriggered "timeout exceeded".toList)
  else if !alive then some TickOutcome.naturalExit
  else none

/-- The rest of a tick, once `pidusage` has settled (`none`: it rejected). -/
def tickSampled (F : NumFormat) (cfg : WatchConfig) (sample : Option Stats) : TickOutcome :=
  match sample with
  | none => TickOutcome.samplerError
  | some st =>
    if JSNum.gt st.cpu cfg.cpuLimit then TickOutcome.thresholdTriggered (cpuReason F cfg st)
    else if JSNum.gt st.memory cfg.memoryLimitBytes then
      TickOutcome.thresholdTriggered (memoryReason F cfg st)
    else TickOutcome.noTrigger

/-- The outcome of a whole tick. -/
def tickOutcome (F : NumFormat) (cfg : WatchConfig) (now : ℤ) (alive : Bool)
    (sample : Option Stats) : TickOutcome :=
  match tickStart cfg now alive with
  | some o => o
  | none => tickSampled F cfg sample

/-- A suspended `async` continuation of the watch action.
* `sample`: a tick waiting at `await pidusage(targetPid)`;
* `info reason guarded`: `terminateWithReceipt(reason)` waiting at
  `await getProcessInfo(targetPid)`;
* `kill receipt guarded`: `terminateWithReceipt` waiting at
  `await killProcess(targetPid)`, with the receipt it has built (`none` on the
  branch without a key);
* `sign signed guarded`: waiting at `await signDeathReceipt(receipt, key)`.
`guarded` tells whether the call sits inside the `try` block of the tick (the
CPU and memory checks) or outside (the timeout check). -/
inductive Task where
  | sample
  | info (reason : JSString) (guarded : Bool)
  | kill (receipt : Option JSObject) (guarded : Bool)
  | sign (signedReceipt : JSObject) (guarded : Bool)

/-- The state of a running `watch`: whether the interval is still armed, how the
process ended if it has, the suspended continuations, and the effects so far. -/
structure Monitor where
  intervalActive : Bool
  ending : Option Ending
  pending : List Task
  effects : List Effect

/-- The state right after `setInterval`. -/
def Monitor.init : Monitor :=
  { intervalActive := true, ending := none, pending := [], effects := [] }

/-- What the event loop delivers:
* `fire now alive`: the interval timer runs the callback; `now` is `Date.now()`
  and `alive` the result of the liveness probe;
* `sampled i r`: the `pidusage` promise of pending continuation `i` settles;
* `inspected i name cmd now`: `getProcessInfo` resolves for continuation `i`
  (`now` is the clock reading used by `createDeathReceipt`);
* `killed i ok`: `killProcess` resolves (`true`) or rejects (`false`);
* `signed i`: `signDeathReceipt` settles. -/
inductive Event where
  | fire (now : ℤ) (alive : Bool)
  | sampled (i : Nat) (result : Option Stats)
  | inspected (i : Nat) (name cmd : JSString) (now : JSString)
  | killed (i : Nat) (ok : Bool)
  | signed (i : Nat)

/-- An exception inside `terminateWithReceipt`: inside the `try` block the
`catch` clause of the tick logs, clears the interval and exits with 0; outside,
the rejection is unhandled. -/
def Monitor.raise (m : Monitor) (guarded : Bool) : Monitor :=
  if guarded then
    { m with
      intervalActive := false
      ending := some (Ending.exited 0)
      effects := m.effects ++
        [Effect.log Message.endedOrInaccessible, Effect.clearInterval, Effect.exit 0] }
  else { m with ending := some Ending.threw }

/-- The call `terminateWithReceipt(reason)` up to its first `await`: with a key
it starts `getProcessInfo`, without one it calls `killProcess` at once. -/
def Monitor.terminate (cfg : WatchConfig) (m : Monitor) (reason : JSString) (guarded : Bool) :
    Monitor :=
  if truthy cfg.key then
    { m with
      effects := m.effects ++ [Effect.getProcessInfo cfg.targetPid]
      pending := m.pending ++ [Task.info reason guarded] }
  else
    { m with
      effects := m.effects ++ [Effect.killProcess cfg.targetPid]
      pending := m.pending ++ [Task.kill none guarded] }

/-- One step of the event loop.  An event that is not enabled (the process has
ended, the interval is cleared, or the index does not name a continuation of
the right kind) leaves the state unchanged. -/
def Monitor.step (C : Crypto) (F : NumFormat) (cfg : WatchConfig) (m : Monitor) (e : Event) :
    Monitor :=
  if m.ending.isSome then m
  else
    match e with
    | Event.fire now alive =>
      if !m.intervalActive then m
      else
        match tickStart cfg now alive with
        | some (TickOutcome.timeoutTriggered reason) =>
          Monitor.terminate cfg
            { m with
              intervalActive := false
              effects := m.effects ++
                [Effect.log Message.timeoutExceeded, Effect.clearInterval] }
            reason false
        | some _ =>
          { m with
            intervalActive := false
            ending := some (Ending.exited 0)
            effects := m.effects ++
              [Effect.log Message.endedNaturally, Effect.clearInterval, Effect.exit 0] }
        | none => { m with pending := m.pending ++ [Task.sample] }
    | Event.sampled i result =>
      match m.pending.get? i with
      | some Task.sample =>
        let m1 := { m with pending := m.pending.eraseIdx i }
        match tickSampled F cfg result, result with
        | TickOutcome.thresholdTriggered reason, some st =>
          Monitor.terminate cfg
            { m1 with
              intervalActive := false
              effects := m1.effects ++
                [Effect.log Message.stats,
                 Effect.log (if JSNum.gt st.cpu cfg.cpuLimit then Message.cpuExceeded
                   else Message.memoryExceeded),
                 Effect.clearInterval] }
            reason true
        | TickOutcome.samplerError, _ => Monitor.raise m1 true
        | _, _ => { m1 with effects := m1.effects ++ [Effect.log Message.stats] }
      | _ => m
    | Event.inspected i name cmd now =>
      match m.pending.get? i with
      | some (Task.info reason guarded) =>
        let m1 := { m with pending := m.pending.eraseIdx i }
        match C.address (keyString cfg.key) with
        | none => Monitor.raise m1 guarded
        | some address =>
          let processInfo : ProcessInfo := { pid := cfg.targetPid, name := name, cmd := cmd }
          let receipt := createDeathReceipt processInfo reason address now
          { m1 with
            effects := m1.effects ++ [Effect.killProcess cfg.targetPid]
            pending := m1.pending ++ [Task.kill (some receipt) guarded] }
      | _ => m
    | Event.killed i ok =>
      match m.pending.get? i with
      | some (Task.kill receipt guarded) =>
        let m1 := { m with pending := m.pending.eraseIdx i }
        if !ok then Monitor.raise m1 guarded
        else
          match receipt with
          | none => { m1 with ending := some (Ending.exited 0), effects := m1.effects ++ [Effect.exit 0] }
          | some r =>
            match signDeathReceipt C (setProp r "status".toList (JSVal.str "KILLED".toList))
                (keyString cfg.key) with
            | none => Monitor.raise m1 guarded
            | some signedReceipt =>
              { m1 with pending := m1.pending ++ [Task.sign signedReceipt guarded] }
      | _ => m
    | Event.signed i =>
      match m.pending.get? i with
      | some (Task.sign signedReceipt _) =>
        { m with
          pending := m.pending.eraseIdx i
          ending := some (Ending.exited 0)
          effects := m.effects ++
            [Effect.writeFile "death-receipt.json".toList (stringifyObject2 signedReceipt),
             Effect.log Message.receiptSigned,
             Effect.pingCounter (stringOf (getProp (JSVal.obj signedReceipt) "signer".toList)),
             Effect.exit 0] }
      | _ => m

/-- The state after a sequence of events. -/
def Monitor.run (C : Crypto) (F : NumFormat) (cfg : WatchConfig) (m : Monitor)
    (events : List Event) : Monitor :=
  events.foldl (Monitor.step C F cfg) m

/-! ## Counting triggers and kills -/

/-- Whether an effect is a call of `killProcess`. -/
def isKillCall : Effect → Bool
  | Effect.killProcess _ => true
  | _ => false

/-- Whether an effect announces a terminal transition: TimeoutTriggered,
NaturalExit or ThresholdTriggered (CPU or memory). -/
def isTrigger : Effect → Bool
  | Effect.log Message.timeoutExceeded => true
  | Effect.log Message.endedNaturally => true
  | Effect.log Message.cpuExceeded => true
  | Effect.log Message.memoryExceeded => true
  | _ => false

/-- Number of calls of `killProcess` among the effects. -/
def killCalls (effects : List Effect) : Nat := effects.countP isKillCall

/-- Number of terminal transitions among the effects. -/
def triggers (effects : List Effect) : Nat := effects.countP isTrigger

instance : Nonempty (Option JSObject) := ⟨none⟩

instance : Nonempty JSObject := ⟨[]⟩

/-- A schedule without overlap: the timer fires only when no continuation of an
earlier tick is pending. -/
def nonOverlapping (C : Crypto) (F : NumFormat) (cfg : WatchConfig) :
    Monitor → List Event → Bool
  | _, [] => true
  | m, e :: es =>
    (match e with
      | Event.fire _ _ => m.pending.isEmpty
      | _ => true) && nonOverlapping C F cfg (Monitor.step C F cfg m e) es

/-- The invariant of runs without overlap: while the process runs, either the
interval is armed, nothing has triggered and at most one sample is awaited, or
the interval is cleared, exactly one trigger has occurred and the single pending
continuation belongs to `terminateWithReceipt`; once the process has ended,
exactly one trigger has occurred, or none and the `catch` clause of the tick
has printed its line. -/
def SeqInv (m : Monitor) : Prop :=
  triggers m.effects ≤ 1 ∧ killCalls m.effects ≤ 1 ∧
  (m.ending = none →
    (m.intervalActive = true ∧ triggers m.effects = 0 ∧ killCalls m.effects = 0 ∧
      (m.pending = [] ∨ m.pending = [Task.sample])) ∨
    (m.intervalActive = false ∧ triggers m.effects = 1 ∧
      ((∃ r g, m.pending = [Task.info r g] ∧ killCalls m.effects = 0) ∨
        (∃ r g, m.pending = [Task.kill r g]) ∨ (∃ s g, m.pending = [Task.sign s g])))) ∧
  (m.ending ≠ none →
    triggers m.effects = 1 ∨
      (triggers m.effects = 0 ∧ Effect.log Message.endedOrInaccessible ∈ m.effects))

/-! ## The layout of a receipt -/

/-- The six fields of a receipt before signing, with the given values. -/
def payloadObject (pid : JSVal) (name cmd reason now killer status : JSString) : JSObject :=
  [ ("type".toList, JSVal.str "AI_TERMINATION".toList),
    ("process".toList, JSVal.obj
      [ ("pid".toList, pid),
        ("name".toList, JSVal.str name),
        ("cmd".toList, JSVal.str cmd) ]),
    ("reason".toList, JSVal.str reason),
    ("timestamp".toList, JSVal.str now),
    ("killer".toList, JSVal.str killer),
    ("status".toList, JSVal.str status) ]

/-- The receipt before signing: the five fields of `createDeathReceipt` followed
by `status`. -/
def payloadFields (info : ProcessInfo) (reason killer now status : JSString) : JSObject :=
  [ ("type".toList, JSVal.str "AI_TERMINATION".toList),
    ("process".toList, JSVal.obj
      [ ("pid".toList, pidValue info.pid),
        ("name".toList, JSVal.str info.name),
        ("cmd".toList, JSVal.str info.cmd) ]),
    ("reason".toList, JSVal.str reason),
    ("timestamp".toList, JSVal.str now),
    ("killer".toList, JSVal.str killer),
    ("status".toList, JSVal.str status) ]

/-- The eight fields of a signed receipt, with the given values. -/
def receiptObject (pid : JSVal) (name cmd reason now killer status signer signature : JSString) :
    JSObject :=
  [ ("type".toList, JSVal.str "AI_TERMINATION".toList),
    ("process".toList, JSVal.obj
      [ ("pid".toList, pid),
        ("name".toList, JSVal.str name),
        ("cmd".toList, JSVal.str cmd) ]),
    ("reason".toList, JSVal.str reason),
    ("timestamp".toList, JSVal.str now),
    ("killer".toList, JSVal.str killer),
    ("status".toList, JSVal.str status),
    ("signer".toList, JSVal.str signer),
    ("signature".toList, JSVal.str signature) ]

/-- The signed receipt built from the given field values with key `key`. -/
def signedFields (C : Crypto) (key address : JSString) (info : ProcessInfo)
    (reason killer now status : JSString) : JSObject :=
  payloadFields info reason killer now status ++
    [ ("signer".toList, JSVal.str address),
      ("signature".toList, JSVal.str (C.signMessage key
        (stringifyObject (payloadFields info reason killer now status)))) ]

/-- The fixed layout of a signed receipt: the eight keys in order, the constant
type, the three keys of `process` in order, a status that is `KILLED` or
`KILL_FAILED`, and a signature over the serialisation of the object without its
last two keys. -/
def IsSignedReceipt (C : Crypto) (key : JSString) (s : JSObject) : Prop :=
  s.map Prod.fst = ["type".toList, "process".toList, "reason".toList, "timestamp".toList,
    "killer".toList, "status".toList, "signer".toList, "signature".toList] ∧
  getProp (JSVal.obj s) "type".toList = JSVal.str "AI_TERMINATION".toList ∧
  (∃ p, getProp (JSVal.obj s) "process".toList = JSVal.obj p ∧
    p.map Prod.fst = ["pid".toList, "name".toList, "cmd".toList]) ∧
  (getProp (JSVal.obj s) "status".toList = JSVal.str "KILLED".toList ∨
    getProp (JSVal.obj s) "status".toList = JSVal.str "KILL_FAILED".toList) ∧
  getProp (JSVal.obj s) "signature".toList
    = JSVal.str (C.signMessage key (stringifyObject s.dropLast.dropLast))

/-- What the watch machine keeps true of a suspended continuation: a receipt
waiting for the kill is the output of `createDeathReceipt`, a receipt waiting
for its signature has the signed layout. -/
def TaskOK (C : Crypto) (cfg : WatchConfig) : Task → Prop
  | Task.kill (some r) _ =>
    ∃ name cmd reason now address,
      C.address (keyString cfg.key) = some address ∧
      r = createDeathReceipt { pid := cfg.targetPid, name := name, cmd := cmd } reason address now
  | Task.sign s _ => IsSignedReceipt C (keyString cfg.key) s
  | _ => True

/-- What is true of every effect: a written file holds a signed receipt. -/
def EffectOK (C : Crypto) (key : JSString) : Effect → Prop
  | Effect.writeFile _ content => ∃ s, content = stringifyObject2 s ∧ IsSignedReceipt C key s
  | _ => True

/-- The JSON text of a PID: decimal digits, or `null` for `NaN`. -/
def pidText : Option Int → List Char
  | some n => renderInt n
  | none => "null".toList

/-- The value `JSON.parse` reads from the text of a PID. -/
def parsedPid : Option Int → JSVal
  | some n => JSVal.num n
  | none => JSVal.null

/-- Where a number may end: at the end of the input or before a character that
is neither a digit nor the start of a fraction or exponent. -/
def numberEnd : List Char → Prop
  | [] => True
  | c :: _ => isDigit c = false ∧ c ≠ '.' ∧ c ≠ 'e' ∧ c ≠ 'E'

/-! ## Example inputs -/

/-- A format used in examples: numbers print as a fixed token. -/
def sampleFormat : NumFormat := { toStr := fun _ => ['n'], toFixed1 := fun _ => ['f'] }

/-- The policy of Scenarios A and B: CPU 50 %, memory 100 MB, timeout 5 s, started
at clock reading 0, without a key. -/
def sampleConfig : WatchConfig :=
  { key := none, targetPid := some 7, cpuLimit := JSNum.fin 50,
    memoryLimitMB := JSNum.fin 100, startTime := 0, timeout := JSNum.fin 5000 }

/-- The policy of `sampleConfig` after `--cpu abc`: the CPU limit is `NaN`. -/
def nanCpuConfig : WatchConfig := { sampleConfig with cpuLimit := JSNum.nan }

/-- A sample at 90 % CPU and 200 MB. -/
def busySample : Stats := { cpu := JSNum.fin 90, memory := JSNum.fin 209715200 }

/-- A sample at 1 % CPU and 1 byte. -/
def idleSample : Stats := { cpu := JSNum.fin 1, memory := JSNum.fin 1 }

/-- One tick whose sample is over the CPU limit, followed by a successful kill. -/
def thresholdRun : List Event :=
  [Event.fire 1000 true, Event.sampled 0 (some { cpu := JSNum.fin 90, memory := JSNum.fin 1 }),
    Event.killed 0 true]

/-- Two ticks that overlap: the second fires while the first still awaits its
sample, and both samples are over the CPU limit. -/
def overlappingRun : List Event :=
  [Event.fire 1000 true, Event.fire 2000 true,
    Event.sampled 0 (some { cpu := JSNum.fin 90, memory := JSNum.fin 1 }),
    Event.sampled 0 (some { cpu := JSNum.fin 95, memory := JSNum.fin 1 })]

/-- One tick whose `pidusage` call rejects. -/
def samplerErrorRun : List Event := [Event.fire 1000 true, Event.sampled 0 none]

/-- A receipt file whose `signer` is the number 5, with a signature that (in the
toy scheme) matches its payload `{"reason":"x"}`. -/
def numberSignerFile : List Char :=
  "\x7b\"reason\":\"x\",\"signer\":5,\"signature\":\"\x7b\\\"reason\\\":\\\"x\\\"\x7d\"\x7d".toList

/-- A toy signature scheme used in examples: the signature of a message is the
message itself, every non-empty key has the address `a`, and recovery yields
`a` exactly when the signature is the message. -/
def toyCrypto : Crypto where
  address := fun k => if k.isEmpty then none else some ['a']
  signMessage := fun _ m => m
  verifyMessage := fun m sig =>
    match sig with
    | JSVal.str s => if s = m then some ['a'] else some ['b']
    | _ => none

/-- Lower-casing of the ASCII letters, used as `toLowerCase` in examples. -/
def asciiLower (s : JSString) : JSString := s.map Char.toLower

/-- The policy of `sampleConfig` with a signing key. -/
def keyedConfig : WatchConfig := { sampleConfig with key := some ['k'] }

/-- A receipt file without `process`, signed (in the toy scheme) over its
payload `{"reason":"x"}`. -/
def noProcessFile : List Char :=
  "\x7b\"reason\":\"x\",\"signer\":\"a\",\"signature\":\"\x7b\\\"reason\\\":\\\"x\\\"\x7d\"\x7d".toList

/-- A parsed receipt whose stored signer differs from the recovered address only
in letter case. -/
def upperSignerReceipt : JSVal :=
  JSVal.obj [("reason".toList, JSVal.str ['x']), ("signer".toList, JSVal.str ['A']),
    ("signature".toList, JSVal.str "\x7b\"reason\":\"x\"\x7d".toList)]

/-- The answers of the operating system in the examples of `kill`. -/
def sampleWorld (killOk : Bool) : KillWorld :=
  { name := "node".toList, cmd := "node agent.js".toList, killOk := killOk,
    now := "2025-01-01T00:00:00.000Z".toList }

/-- The process of the examples. -/
def sampleInfo : ProcessInfo :=
  { pid := some 4242, name := "node".toList, cmd := "node agent.js".toList }

/-! ## Theorems -/

/-! ### The tick of the watch monitor -/

/-- The part of a tick after the timeout check never reports a timeout. -/
theorem tickSampled_ne_timeout (F : NumFormat) (cfg : WatchConfig) (sample : Option Stats)
    (reason : JSString) : tickSampled F cfg sample ≠ TickOutcome.timeoutTriggered reason := by
  unfold tickSampled
  split
  · intro h; cases h
  · split
    · intro h; cases h
    · split
      · intro h; cases h
      · intro h; cases h

/-- C2 (amended): the outcome of a tick is TimeoutTriggered exactly when the
elapsed time since start is strictly greater than the configured timeout.  On
every such tick the outcome is TimeoutTriggered with reason 'timeout exceeded',
whatever the liveness probe and the resource sample report; on every other tick
the outcome is not TimeoutTriggered, in particular on the tick where the elapsed
time equals the timeout exactly. -/
theorem tickOutcome_timeout (F : NumFormat) (cfg : WatchConfig) (now : ℤ) (alive : Bool)
    (sample : Option Stats) :
    (JSNum.gt (cfg.elapsed now) cfg.timeout = true →
      tickOutcome F cfg now alive sample
        = TickOutcome.timeoutTriggered "timeout exceeded".toList) ∧
    (JSNum.gt (cfg.elapsed now) cfg.timeout = false →
      ∀ reason, tickOutcome F cfg now alive sample ≠ TickOutcome.timeoutTriggered reason) ∧
    (cfg.timeout = cfg.elapsed now →
      ∀ reason, tickOutcome F cfg now alive sample ≠ TickOutcome.timeoutTriggered reason) := by
  have hno : JSNum.gt (cfg.elapsed now) cfg.timeout = false →
      ∀ reason, tickOutcome F cfg now alive sample ≠ TickOutcome.timeoutTriggered reason := by
    intro h reason
    cases alive
    · simp [tickOutcome, tickStart, h]
    · simpa [tickOutcome, tickStart, h] using tickSampled_ne_timeout F cfg sample reason
  refine ⟨?_, hno, ?_⟩
  · intro h
    simp [tickOutcome, tickStart, h]
  · intro h
    apply hno
    rw [h]
    simp [WatchConfig.elapsed, JSNum.gt]

/-- Witness of `tickOutcome_timeout`: one second past a five second timeout the
outcome is TimeoutTriggered, and exactly at five seconds it is not. -/
theorem tickOutcome_timeout_witness :
    (JSNum.gt (sampleConfig.elapsed 6000) sampleConfig.timeout = true ∧
      tickOutcome sampleFormat sampleConfig 6000 false none
        = TickOutcome.timeoutTriggered "timeout exceeded".toList) ∧
    (sampleConfig.timeout = sampleConfig.elapsed 5000 ∧
      ∀ reason, tickOutcome sampleFormat sampleConfig 5000 true (some idleSample)
        ≠ TickOutcome.timeoutTriggered reason) :=
  ⟨⟨by decide, (tickOutcome_timeout sampleFormat sampleConfig 6000 false none).1 (by decide)⟩,
    ⟨by decide,
      (tickOutcome_timeout sampleFormat sampleConfig 5000 true (some idleSample)).2.2
        (by decide)⟩⟩

/-- C2 as stated fails: on the tick where the elapsed time equals the timeout
exactly, a live process under its limits gives no trigger. -/
theorem tickOutcome_at_timeout_not_triggered :
    JSNum.le sampleConfig.timeout (sampleConfig.elapsed 5000) = true ∧
    tickOutcome sampleFormat sampleConfig 5000 true (some idleSample)
      = TickOutcome.noTrigger ∧
    tickOutcome sampleFormat sampleConfig 5000 true (some idleSample)
      ≠ TickOutcome.timeoutTriggered "timeout exceeded".toList := by
  have h : tickOutcome sampleFormat sampleConfig 5000 true (some idleSample)
      = TickOutcome.noTrigger := by
    simp [tickOutcome, tickStart, tickSampled, sampleConfig, idleSample,
      WatchConfig.memoryLimitBytes, WatchConfig.elapsed, JSNum.gt, JSNum.times]
    norm_num
  refine ⟨by decide, h, ?_⟩
  rw [h]
  intro hc
  cases hc

/-- For numbers other than `NaN`, `a > b` fails exactly when `a <= b` holds. -/
theorem JSNum.gt_false_iff_le (a b : JSNum) (ha : a ≠ JSNum.nan) (hb : b ≠ JSNum.nan) :
    JSNum.gt a b = false ↔ JSNum.le a b = true := by
  cases a <;> cases b <;> simp [JSNum.gt, JSNum.le] at ha hb ⊢

/-- C3 (amended): on a tick that is not timed out and whose liveness probe
succeeds, a sample with `cpu > cpuLimit` and `memory > memoryLimitBytes` gives
ThresholdTriggered with the reason 'CPU exceeded <cpuLimit>% (was <cpu>%)'; the
reason 'Memory exceeded <memoryLimitMB>MB (was <memoryMB>MB)' is produced
exactly when the test `cpu > cpuLimit` fails and `memory > memoryLimitBytes`
holds, which for a CPU value and limit other than `NaN` is `cpu <= cpuLimit`
and `memory > memoryLimitBytes`. -/
theorem cpu_before_memory (F : NumFormat) (cfg : WatchConfig) (now : ℤ) (alive : Bool)
    (st : Stats) (hnt : JSNum.gt (cfg.elapsed now) cfg.timeout = false)
    (halive : alive = true) :
    (JSNum.gt st.cpu cfg.cpuLimit = true ∧ JSNum.gt st.memory cfg.memoryLimitBytes = true →
      tickOutcome F cfg now alive (some st)
        = TickOutcome.thresholdTriggered
            ("CPU exceeded ".toList ++ F.toStr cfg.cpuLimit ++ "% (was ".toList ++
              F.toFixed1 st.cpu ++ "%)".toList)) ∧
    (tickOutcome F cfg now alive (some st)
        = TickOutcome.thresholdTriggered
            ("Memory exceeded ".toList ++ F.toStr cfg.memoryLimitMB ++ "MB (was ".toList ++
              F.toFixed1 ((st.memory.over 1024).over 1024) ++ "MB)".toList) ↔
      JSNum.gt st.cpu cfg.cpuLimit = false ∧
        JSNum.gt st.memory cfg.memoryLimitBytes = true) ∧
    (st.cpu ≠ JSNum.nan → cfg.cpuLimit ≠ JSNum.nan →
      (tickOutcome F cfg now alive (some st)
          = TickOutcome.thresholdTriggered
              ("Memory exceeded ".toList ++ F.toStr cfg.memoryLimitMB ++ "MB (was ".toList ++
                F.toFixed1 ((st.memory.over 1024).over 1024) ++ "MB)".toList) ↔
        JSNum.le st.cpu cfg.cpuLimit = true ∧
          JSNum.gt st.memory cfg.memoryLimitBytes = true)) := by
  subst halive
  have hne : ("CPU exceeded ".toList ++ F.toStr cfg.cpuLimit ++ "% (was ".toList ++
      F.toFixed1 st.cpu ++ "%)".toList)
      ≠ ("Memory exceeded ".toList ++ F.toStr cfg.memoryLimitMB ++ "MB (was ".toList ++
        F.toFixed1 ((st.memory.over 1024).over 1024) ++ "MB)".toList) := by
    intro h
    have h2 := congrArg List.head? h
    simp at h2
  have hmem : tickOutcome F cfg now true (some st)
        = TickOutcome.thresholdTriggered
            ("Memory exceeded ".toList ++ F.toStr cfg.memoryLimitMB ++ "MB (was ".toList ++
              F.toFixed1 ((st.memory.over 1024).over 1024) ++ "MB)".toList) ↔
      JSNum.gt st.cpu cfg.cpuLimit = false ∧
        JSNum.gt st.memory cfg.memoryLimitBytes = true := by
    cases hc : JSNum.gt st.cpu cfg.cpuLimit
    · cases hm : JSNum.gt st.memory cfg.memoryLimitBytes
      · simp [tickOutcome, tickStart, tickSampled, hnt, hc, hm]
      · simp [tickOutcome, tickStart, tickSampled, hnt, hc, hm, memoryReason]
    · simp only [tickOutcome, tickStart, tickSampled, hnt, hc, cpuReason]
      simp [hne]
  refine ⟨?_, hmem, ?_⟩
  · rintro ⟨hc, _⟩
    simp [tickOutcome, tickStart, tickSampled, hnt, hc, cpuReason]
  · intro h1 h2
    rw [hmem, JSNum.gt_false_iff_le _ _ h1 h2]

/-- Witness of `cpu_before_memory`: the policy of Scenario B, two seconds in, the
process alive, at 90 % CPU and 200 MB. -/
theorem cpu_before_memory_witness :
    JSNum.gt (sampleConfig.elapsed 2000) sampleConfig.timeout = false ∧ true = true ∧
    tickOutcome sampleFormat sampleConfig 2000 true (some busySample)
      = TickOutcome.thresholdTriggered
          ("CPU exceeded ".toList ++ sampleFormat.toStr sampleConfig.cpuLimit ++
            "% (was ".toList ++ sampleFormat.toFixed1 busySample.cpu ++ "%)".toList) :=
  ⟨by decide, rfl,
    (cpu_before_memory sampleFormat sampleConfig 2000 true busySample (by decide) rfl).1
      ⟨by decide, by
        simp [busySample, sampleConfig, WatchConfig.memoryLimitBytes, JSNum.times, JSNum.gt]
        norm_num⟩⟩

/-- C3 as stated fails: with a `NaN` CPU limit (`--cpu abc`) the memory reason is
produced although `cpu <= cpuLimit` is false. -/
theorem memory_reason_with_nan_cpu_limit :
    tickOutcome sampleFormat nanCpuConfig 2000 true (some busySample)
      = TickOutcome.thresholdTriggered
          ("Memory exceeded ".toList ++ sampleFormat.toStr nanCpuConfig.memoryLimitMB ++
            "MB (was ".toList ++
            sampleFormat.toFixed1 ((busySample.memory.over 1024).over 1024) ++ "MB)".toList) ∧
    JSNum.le busySample.cpu nanCpuConfig.cpuLimit = false := by
  refine ⟨?_, by decide⟩
  simp [tickOutcome, tickStart, tickSampled, nanCpuConfig, sampleConfig, busySample,
    WatchConfig.memoryLimitBytes, WatchConfig.elapsed, JSNum.gt, JSNum.times, memoryReason]
  norm_num

/-! ### The verify command -/

/-- A value with a string-valued own property is an object. -/
theorem getProp_str_is_obj (v : JSVal) (k s : JSString) (h : getProp v k = JSVal.str s) :
    ∃ fields, v = JSVal.obj fields := by
  cases v <;> simp [getProp] at h
  exact ⟨_, rfl⟩

/-- The VALID branch always prints the VALID line first. -/
theorem valid_mem_validSummary (receipt : JSVal) :
    Effect.log Message.valid ∈ (validSummary receipt).effects := by
  unfold validSummary
  repeat' split
  all_goals simp

/-- The VALID branch never ends well when `process` is missing. -/
theorem validSummary_no_process (receipt : JSVal)
    (h : getProp receipt "process".toList = JSVal.undefined) :
    validSummary receipt = { effects := [Effect.log Message.valid], ending := Ending.threw } := by
  unfold validSummary
  rw [h]

/-- C6 (amended): for a parsed receipt whose signature yields a recovered
address, when the stored signer is a string verify prints VALID if and only if
the recovered address and the stored signer are equal after lower-casing, and
on a mismatch it does not throw but prints INVALID and exits with code 1; when
the stored signer is not a string verify throws and prints nothing. -/
theorem verify_decision (C : Crypto) (toLowerCase : JSString → JSString) (receipt : JSVal)
    (recovered : JSString)
    (hr : C.verifyMessage (verifyPayload receipt) (getProp receipt "signature".toList)
      = some recovered) :
    (∀ signerStr, getProp receipt "signer".toList = JSVal.str signerStr →
      (Effect.log Message.valid ∈ (verifyReceipt C toLowerCase (some receipt)).effects ↔
        toLowerCase recovered = toLowerCase signerStr) ∧
      (toLowerCase recovered ≠ toLowerCase signerStr →
        verifyReceipt C toLowerCase (some receipt)
          = { effects := [Effect.log Message.invalid, Effect.exit 1],
              ending := Ending.exited 1 })) ∧
    ((∀ signerStr, getProp receipt "signer".toList ≠ JSVal.str signerStr) →
      verifyReceipt C toLowerCase (some receipt)
        = { effects := [], ending := Ending.threw }) := by
  constructor
  · intro signerStr hs
    obtain ⟨fields, rfl⟩ := getProp_str_is_obj receipt _ _ hs
    have hrun : verifyReceipt C toLowerCase (some (JSVal.obj fields))
        = if toLowerCase recovered = toLowerCase signerStr then validSummary (JSVal.obj fields)
          else { effects := [Effect.log Message.invalid, Effect.exit 1],
                 ending := Ending.exited 1 } := by
      simp only [verifyReceipt, hr, hs]
    rw [hrun]
    by_cases heq : toLowerCase recovered = toLowerCase signerStr
    · have hv := valid_mem_validSummary (JSVal.obj fields)
      simp [heq, hv]
    · simp [heq]
  · intro hns
    cases receipt <;> simp only [verifyReceipt] <;> try rfl
    all_goals rw [hr]

/-- Witness of `verify_decision`: the stored signer `A` and the recovered
address `a` agree up to case. -/
theorem verify_decision_witness :
    (∀ signerStr, getProp upperSignerReceipt "signer".toList = JSVal.str signerStr →
      (Effect.log Message.valid ∈
          (verifyReceipt toyCrypto asciiLower (some upperSignerReceipt)).effects ↔
        asciiLower ['a'] = asciiLower signerStr) ∧
      (asciiLower ['a'] ≠ asciiLower signerStr →
        verifyReceipt toyCrypto asciiLower (some upperSignerReceipt)
          = { effects := [Effect.log Message.invalid, Effect.exit 1],
              ending := Ending.exited 1 })) ∧
    ((∀ signerStr, getProp upperSignerReceipt "signer".toList ≠ JSVal.str signerStr) →
      verifyReceipt toyCrypto asciiLower (some upperSignerReceipt)
        = { effects := [], ending := Ending.threw }) :=
  verify_decision toyCrypto asciiLower upperSignerReceipt ['a'] rfl

/-- C6 as stated fails: for a receipt whose stored signer is the number 5 and
whose signature yields a recovered address, verify throws at
`signer.toLowerCase()` instead of reporting INVALID. -/
theorem verify_throws_on_number_signer :
    JSON_parse numberSignerFile
      = some (JSVal.obj [("reason".toList, JSVal.str ['x']), ("signer".toList, JSVal.num 5),
          ("signature".toList, JSVal.str "\x7b\"reason\":\"x\"\x7d".toList)]) ∧
    toyCrypto.verifyMessage
        (verifyPayload (JSVal.obj [("reason".toList, JSVal.str ['x']),
          ("signer".toList, JSVal.num 5),
          ("signature".toList, JSVal.str "\x7b\"reason\":\"x\"\x7d".toList)]))
        (JSVal.str "\x7b\"reason\":\"x\"\x7d".toList) = some ['a'] ∧
    verifyCommand toyCrypto asciiLower numberSignerFile
      = { effects := [], ending := Ending.threw } :=
  ⟨by rfl, by rfl, by decide⟩

/-- C9 (amended): verify ends in an error, without printing anything, on a file
that is not JSON and on a parsed receipt that lacks `signer` or `signature`
(the library throwing on an `undefined` signature); on a receipt that lacks
`process` it never returns normally. -/
theorem verify_rejects_incomplete (C : Crypto) (toLowerCase : JSString → JSString)
    (hlib : ∀ m, C.verifyMessage m JSVal.undefined = none) :
    (∀ text, JSON_parse text = none →
      verifyCommand C toLowerCase text = { effects := [], ending := Ending.threw }) ∧
    (∀ receipt, getProp receipt "signer".toList = JSVal.undefined ∨
        getProp receipt "signature".toList = JSVal.undefined →
      verifyReceipt C toLowerCase (some receipt) = { effects := [], ending := Ending.threw }) ∧
    (∀ receipt, getProp receipt "process".toList = JSVal.undefined →
      (verifyReceipt C toLowerCase (some receipt)).ending ≠ Ending.returned) := by
  refine ⟨?_, ?_, ?_⟩
  · intro text h
    simp [verifyCommand, h, verifyReceipt]
  · intro receipt h
    rcases h with h | h
    · cases receipt <;> simp only [verifyReceipt] <;> try rfl
      all_goals
        rw [h]
        split <;> rfl
    · cases receipt <;> simp only [verifyReceipt] <;> try rfl
      all_goals
        rw [h, hlib]
  · intro receipt h
    cases receipt <;> simp only [verifyReceipt] <;> try simp
    all_goals
      split
      · simp
      · split
        · split
          · rw [validSummary_no_process _ h]
            simp
          · simp
        · simp

/-- Witness of `verify_rejects_incomplete`: the toy scheme throws on an
`undefined` signature. -/
theorem verify_rejects_incomplete_witness :
    (∀ text, JSON_parse text = none →
      verifyCommand toyCrypto asciiLower text = { effects := [], ending := Ending.threw }) ∧
    (∀ receipt, getProp receipt "signer".toList = JSVal.undefined ∨
        getProp receipt "signature".toList = JSVal.undefined →
      verifyReceipt toyCrypto asciiLower (some receipt)
        = { effects := [], ending := Ending.threw }) ∧
    (∀ receipt, getProp receipt "process".toList = JSVal.undefined →
      (verifyReceipt toyCrypto asciiLower (some receipt)).ending ≠ Ending.returned) :=
  verify_rejects_incomplete toyCrypto asciiLower (fun _ => rfl)

/-- C9 as stated fails: a receipt file without `process` whose signature matches
its payload makes verify print the VALID line before it fails. -/
theorem verify_prints_valid_without_process :
    JSON_parse noProcessFile
      = some (JSVal.obj [("reason".toList, JSVal.str ['x']), ("signer".toList, JSVal.str ['a']),
          ("signature".toList, JSVal.str "\x7b\"reason\":\"x\"\x7d".toList)]) ∧
    verifyCommand toyCrypto asciiLower noProcessFile
      = { effects := [Effect.log Message.valid], ending := Ending.threw } :=
  ⟨by rfl, by decide⟩

/-! ### The kill command -/

/-- C8: when no key is available (no `--key`, neither environment variable set),
kill prints the missing-key message and exits with code 1; it has not inspected
or killed the target and has written no file. -/
theorem kill_without_key (C : Crypto) (pid : Option Int) (reason out : JSString)
    (w : KillWorld) :
    killCommand C none none none pid reason out w
      = { effects := [Effect.log Message.missingKey, Effect.exit 1],
          ending := Ending.exited 1 } := by
  rfl

/-! ### Serialising an object -/

/-- `JSON.stringify` of an object is the string `stringifyObject` builds. -/
theorem JSON_stringify_obj (o : JSObject) :
    JSON_stringify (JSVal.obj o) = some (stringifyObject o) := by
  simp [JSON_stringify, stringifyObject, serProperty]

/-- `JSON.stringify` with indentation 2 of an object is the string
`stringifyObject2` builds. -/
theorem JSON_stringify2_obj (o : JSObject) :
    JSON_stringify2 (JSVal.obj o) = some (stringifyObject2 o) := by
  simp [JSON_stringify2, stringifyObject2, serProperty]

/-! ### The layout of written receipts -/

theorem setProp_status (info : ProcessInfo) (reason killer now status : JSString) :
    setProp (createDeathReceipt info reason killer now) "status".toList (JSVal.str status)
      = payloadFields info reason killer now status := by
  rfl

theorem signDeathReceipt_payloadFields (C : Crypto) (info : ProcessInfo)
    (reason killer now status key address : JSString) (h : C.address key = some address) :
    signDeathReceipt C (payloadFields info reason killer now status) key
      = some (signedFields C key address info reason killer now status) := by
  unfold signDeathReceipt
  rw [h]
  rfl

theorem signDeathReceipt_isSome (C : Crypto) (r : JSObject) (key : JSString) (s : JSObject)
    (h : signDeathReceipt C r key = some s) : ∃ address, C.address key = some address := by
  unfold signDeathReceipt at h
  cases ha : C.address key with
  | none => rw [ha] at h; cases h
  | some a => exact ⟨a, rfl⟩

theorem signedFields_isSigned (C : Crypto) (key address : JSString) (info : ProcessInfo)
    (reason killer now status : JSString)
    (hst : status = "KILLED".toList ∨ status = "KILL_FAILED".toList) :
    IsSignedReceipt C key (signedFields C key address info reason killer now status) := by
  refine ⟨rfl, rfl, ⟨_, rfl, rfl⟩, ?_, rfl⟩
  rcases hst with h | h
  · left; rw [h]; rfl
  · right; rw [h]; rfl

theorem signed_of_task (C : Crypto) (cfg : WatchConfig) (r s : JSObject) (g : Bool)
    (ht : TaskOK C cfg (Task.kill (some r) g))
    (hs : signDeathReceipt C (setProp r "status".toList (JSVal.str "KILLED".toList))
      (keyString cfg.key) = some s) :
    IsSignedReceipt C (keyString cfg.key) s := by
  obtain ⟨name, cmd, reason, now, address, ha, rfl⟩ := ht
  rw [setProp_status, signDeathReceipt_payloadFields C _ _ _ _ _ _ _ ha] at hs
  cases hs
  exact signedFields_isSigned C _ _ _ _ _ _ _ (Or.inl rfl)

theorem Monitor.step_ok (C : Crypto) (F : NumFormat) (cfg : WatchConfig) (m : Monitor) (e : Event)
    (hp : ∀ t ∈ m.pending, TaskOK C cfg t)
    (he : ∀ x ∈ m.effects, EffectOK C (keyString cfg.key) x) :
    (∀ t ∈ (Monitor.step C F cfg m e).pending, TaskOK C cfg t) ∧
    (∀ x ∈ (Monitor.step C F cfg m e).effects, EffectOK C (keyString cfg.key) x) := by
  have hp2 : ∀ i, ∀ t ∈ m.pending.eraseIdx i, TaskOK C cfg t :=
    fun i t ht => hp t (List.mem_of_mem_eraseIdx ht)
  unfold Monitor.step
  split
  · exact ⟨hp, he⟩
  · cases e with
    | fire now alive =>
      simp only [Monitor.terminate]
      repeat' split
      all_goals
        refine ⟨?_, ?_⟩ <;>
        simp only [List.forall_mem_append, List.forall_mem_cons, List.forall_mem_singleton,
          TaskOK, EffectOK, and_true, List.not_mem_nil, false_implies, implies_true] <;>
        assumption
    | sampled i result =>
      simp only [Monitor.terminate, Monitor.raise]
      repeat' split
      all_goals
        refine ⟨?_, ?_⟩ <;>
        simp only [List.forall_mem_append, List.forall_mem_cons, List.forall_mem_singleton,
          TaskOK, EffectOK, and_true, List.not_mem_nil, false_implies, implies_true] <;>
        first | assumption | exact hp2 _
    | inspected i name cmd now =>
      simp only [Monitor.terminate, Monitor.raise]
      repeat' split
      all_goals
        refine ⟨?_, ?_⟩ <;>
        simp only [List.forall_mem_append, List.forall_mem_cons, List.forall_mem_singleton,
          TaskOK, EffectOK, and_true, List.not_mem_nil, false_implies, implies_true] <;>
        first
          | assumption
          | exact hp2 _
          | exact ⟨hp2 _, _, _, _, _, _, by assumption, rfl⟩
    | killed i ok =>
      simp only [Monitor.terminate, Monitor.raise]
      repeat' split
      all_goals
        refine ⟨?_, ?_⟩ <;>
        simp only [List.forall_mem_append, List.forall_mem_cons, List.forall_mem_singleton,
          TaskOK, EffectOK, and_true, List.not_mem_nil, false_implies, implies_true] <;>
        first
          | assumption
          | exact hp2 _
          | (refine ⟨hp2 _, ?_⟩
             rename_i hget _ _ hsig
             exact signed_of_task C cfg _ _ _ (hp _ (List.get?_mem hget)) hsig)
    | signed i =>
      simp only [Monitor.terminate, Monitor.raise]
      repeat' split
      all_goals
        refine ⟨?_, ?_⟩ <;>
        simp only [List.forall_mem_append, List.forall_mem_cons, List.forall_mem_singleton,
          TaskOK, EffectOK, and_true, List.not_mem_nil, false_implies, implies_true] <;>
        first
          | assumption
          | exact hp2 _
          | (rename_i hget
             exact ⟨he, _, rfl, hp _ (List.get?_mem hget)⟩)

/-- Every state reached from the initial one keeps the receipts in flight and
the files written in the signed layout. -/
theorem Monitor.run_ok (C : Crypto) (F : NumFormat) (cfg : WatchConfig) (events : List Event)
    (m : Monitor) (hp : ∀ t ∈ m.pending, TaskOK C cfg t)
    (he : ∀ x ∈ m.effects, EffectOK C (keyString cfg.key) x) :
    ∀ x ∈ (Monitor.run C F cfg m events).effects, EffectOK C (keyString cfg.key) x := by
  induction events generalizing m with
  | nil => exact he
  | cons e es ih =>
    have h := Monitor.step_ok C F cfg m e hp he
    exact ih (Monitor.step C F cfg m e) h.1 h.2


/-- C10: every receipt file written by kill, by watch and by the timeout handler
of wrap is the pretty-printed form of an object with exactly the keys type,
process, reason, timestamp, killer, status, signer, signature in that order,
type `AI_TERMINATION`, process holding pid, name, cmd in that order, status
`KILLED` or `KILL_FAILED`, and a signature over the serialisation of the same
object without its last two keys. -/
theorem written_receipts_fixed_layout (C : Crypto) (F : NumFormat) :
    (∀ optKey envKillswitchKey envReceiptKey pid reason out w path content,
      Effect.writeFile path content ∈
        (killCommand C optKey envKillswitchKey envReceiptKey pid reason out w).effects →
      ∃ s, content = stringifyObject2 s ∧
        IsSignedReceipt C (keyString (resolveKey optKey envKillswitchKey envReceiptKey)) s) ∧
    (∀ cfg events path content,
      Effect.writeFile path content ∈ (Monitor.run C F cfg Monitor.init events).effects →
      ∃ s, content = stringifyObject2 s ∧ IsSignedReceipt C (keyString cfg.key) s) ∧
    (∀ key childPid command0 cmd reason now path content,
      Effect.writeFile path content ∈
        (wrapTimeout C key childPid command0 cmd reason now).effects →
      ∃ s, content = stringifyObject2 s ∧ IsSignedReceipt C (keyString key) s) := by
  refine ⟨?_, ?_, ?_⟩
  · intro optKey e1 e2 pid reason out w path content hmem
    unfold killCommand at hmem
    simp only [setProp_status] at hmem
    split at hmem
    · simp at hmem
    · split at hmem
      · simp at hmem
      · rename_i address ha
        rw [signDeathReceipt_payloadFields C _ _ _ _ _ _ _ ha] at hmem
        simp at hmem
        refine ⟨_, hmem.2, signedFields_isSigned C _ _ _ _ _ _ _ ?_⟩
        cases w.killOk <;> simp
  · intro cfg events path content hmem
    exact Monitor.run_ok C F cfg events Monitor.init (by simp [Monitor.init])
      (by simp [Monitor.init]) _ hmem
  · intro key childPid command0 cmd reason now path content hmem
    unfold wrapTimeout at hmem
    simp only [setProp_status] at hmem
    split at hmem
    · split at hmem
      · rename_i signedReceipt hs
        obtain ⟨address, ha⟩ := signDeathReceipt_isSome C _ _ _ hs
        rw [signDeathReceipt_payloadFields C _ _ _ _ _ _ _ ha] at hs
        cases hs
        simp at hmem
        exact ⟨_, hmem.2, signedFields_isSigned C _ _ _ _ _ _ _ (Or.inl rfl)⟩
      · simp at hmem
    · simp at hmem

set_option maxRecDepth 100000 in
/-- Witness of `written_receipts_fixed_layout`: the file written by `kill` with key `k` in the toy
scheme after a failed kill. -/
theorem written_receipts_fixed_layout_witness :
    ∃ s, stringifyObject2 (signedFields toyCrypto ['k'] ['a']
          { pid := some 7, name := (sampleWorld false).name, cmd := (sampleWorld false).cmd }
          "manual kill".toList ['a'] (sampleWorld false).now "KILL_FAILED".toList)
        = stringifyObject2 s ∧
      IsSignedReceipt toyCrypto (keyString (resolveKey (some ['k']) none none)) s :=
  (written_receipts_fixed_layout toyCrypto sampleFormat).1 (some ['k']) none none (some 7)
    "manual kill".toList "death-receipt.json".toList (sampleWorld false)
    "death-receipt.json".toList _ (by decide)

/-! ### Runs of the watch monitor without overlap -/

theorem triggers_append (xs ys : List Effect) :
    triggers (xs ++ ys) = triggers xs + triggers ys := by
  simp [triggers]

theorem killCalls_append (xs ys : List Effect) :
    killCalls (xs ++ ys) = killCalls xs + killCalls ys := by
  simp [killCalls]

theorem triggers_cons (x : Effect) (xs : List Effect) :
    triggers (x :: xs) = triggers xs + (if isTrigger x then 1 else 0) := by
  simp [triggers, List.countP_cons]

theorem killCalls_cons (x : Effect) (xs : List Effect) :
    killCalls (x :: xs) = killCalls xs + (if isKillCall x then 1 else 0) := by
  simp [killCalls, List.countP_cons]

theorem triggers_nil : triggers [] = 0 := rfl

theorem killCalls_nil : killCalls [] = 0 := rfl

theorem Monitor.step_seq (C : Crypto) (F : NumFormat) (cfg : WatchConfig) (m : Monitor)
    (e : Event) (h : SeqInv m)
    (hf : ∀ now alive, e = Event.fire now alive → m.pending = []) :
    SeqInv (Monitor.step C F cfg m e) := by
  obtain ⟨active, ending, pending, effects⟩ := m
  cases ending with
  | some en => simpa [Monitor.step] using h
  | none =>
    obtain ⟨ht, hk, hcase, -⟩ := h
    simp only [true_implies] at hcase
    rcases hcase with ⟨hact, ht0, hk0, hp⟩ | ⟨hact, ht1, hp⟩
    · try dsimp only at hact ht0 hk0 hp
      subst hact
      cases e with
      | fire now alive =>
        have hpe : pending = [] := hf now alive rfl
        subst hpe
        simp only [Monitor.step, Monitor.terminate, Option.isSome_none, Bool.false_eq_true,
          if_false, Bool.not_true]
        repeat' split
        all_goals
          simp [SeqInv, triggers_append, killCalls_append, triggers_cons, killCalls_cons,
            triggers_nil, killCalls_nil, isTrigger, isKillCall, ht0, hk0]
      | sampled i result =>
        rcases hp with rfl | rfl
        · simp [Monitor.step, SeqInv, ht0, hk0]
        · rcases i with _ | i
          · simp only [Monitor.step, Monitor.terminate, Monitor.raise, Option.isSome_none,
              Bool.false_eq_true, if_false, List.get?, List.eraseIdx]
            repeat' split
            all_goals
              simp [SeqInv, triggers_append, killCalls_append, triggers_cons, killCalls_cons,
                triggers_nil, killCalls_nil, isTrigger, isKillCall, ht0, hk0]
            all_goals simp_all
          · simp [Monitor.step, SeqInv, ht0, hk0]
      | inspected i name cmd now =>
        rcases hp with rfl | rfl
        · simp [Monitor.step, SeqInv, ht0, hk0]
        · rcases i with _ | i <;> simp [Monitor.step, SeqInv, ht0, hk0]
      | killed i ok =>
        rcases hp with rfl | rfl
        · simp [Monitor.step, SeqInv, ht0, hk0]
        · rcases i with _ | i <;> simp [Monitor.step, SeqInv, ht0, hk0]
      | signed i =>
        rcases hp with rfl | rfl
        · simp [Monitor.step, SeqInv, ht0, hk0]
        · rcases i with _ | i <;> simp [Monitor.step, SeqInv, ht0, hk0]
    · try dsimp only at hact ht1 hp
      subst hact
      rcases hp with ⟨r, g, rfl, hk0⟩ | ⟨r, g, rfl⟩ | ⟨r, g, rfl⟩
      · cases e with
        | inspected i name cmd now =>
          rcases i with _ | i
          · simp only [Monitor.step, Monitor.terminate, Monitor.raise, Option.isSome_none,
              Bool.false_eq_true, if_false, List.get?, List.eraseIdx]
            repeat' split
            all_goals
              simp [SeqInv, triggers_append, killCalls_append, triggers_cons, killCalls_cons,
                triggers_nil, killCalls_nil, isTrigger, isKillCall, ht1, hk0]
          · simp [Monitor.step, SeqInv, ht1, hk0]
        | fire now alive => simp [Monitor.step, SeqInv, ht1, hk0]
        | sampled i result => rcases i with _ | i <;> simp [Monitor.step, SeqInv, ht1, hk0]
        | killed i ok => rcases i with _ | i <;> simp [Monitor.step, SeqInv, ht1, hk0]
        | signed i => rcases i with _ | i <;> simp [Monitor.step, SeqInv, ht1, hk0]
      · cases e with
        | killed i ok =>
          rcases i with _ | i
          · simp only [Monitor.step, Monitor.terminate, Monitor.raise, Option.isSome_none,
              Bool.false_eq_true, if_false, List.get?, List.eraseIdx]
            repeat' split
            all_goals
              simp [SeqInv, triggers_append, killCalls_append, triggers_cons, killCalls_cons,
                triggers_nil, killCalls_nil, isTrigger, isKillCall, ht1]
            all_goals exact hk
          · simpa [Monitor.step, SeqInv, ht1] using hk
        | fire now alive => simpa [Monitor.step, SeqInv, ht1] using hk
        | sampled i result => rcases i with _ | i <;> simpa [Monitor.step, SeqInv, ht1] using hk
        | inspected i name cmd now =>
          rcases i with _ | i <;> simpa [Monitor.step, SeqInv, ht1] using hk
        | signed i => rcases i with _ | i <;> simpa [Monitor.step, SeqInv, ht1] using hk
      · cases e with
        | signed i =>
          rcases i with _ | i
          · simp only [Monitor.step, Monitor.terminate, Monitor.raise, Option.isSome_none,
              Bool.false_eq_true, if_false, List.get?, List.eraseIdx]
            simp [SeqInv, triggers_append, killCalls_append, triggers_cons, killCalls_cons,
                triggers_nil, killCalls_nil, isTrigger, isKillCall, ht1]
            exact hk
          · simpa [Monitor.step, SeqInv, ht1] using hk
        | fire now alive => simpa [Monitor.step, SeqInv, ht1] using hk
        | sampled i result => rcases i with _ | i <;> simpa [Monitor.step, SeqInv, ht1] using hk
        | inspected i name cmd now =>
          rcases i with _ | i <;> simpa [Monitor.step, SeqInv, ht1] using hk
        | killed i ok => rcases i with _ | i <;> simpa [Monitor.step, SeqInv, ht1] using hk


/-- The invariant holds along every schedule without overlap. -/
theorem Monitor.run_seq (C : Crypto) (F : NumFormat) (cfg : WatchConfig) (events : List Event)
    (m : Monitor) (h : SeqInv m) (hs : nonOverlapping C F cfg m events = true) :
    SeqInv (Monitor.run C F cfg m events) := by
  induction events generalizing m with
  | nil => exact h
  | cons e es ih =>
    simp only [nonOverlapping, Bool.and_eq_true] at hs
    refine ih (Monitor.step C F cfg m e) (Monitor.step_seq C F cfg m e h ?_) hs.2
    intro now alive he
    subst he
    simpa using hs.1

/-- The initial state satisfies the invariant. -/
theorem Monitor.init_seq : SeqInv Monitor.init := by
  simp [SeqInv, Monitor.init, triggers_nil, killCalls_nil]

/-- C7 (amended): in every run of the watch monitor in which no tick fires while
an earlier tick is still suspended, at most one of NaturalExit,
TimeoutTriggered, ThresholdTriggered occurs, `killProcess` is called at most
once, once a trigger has occurred a later firing of the timer changes nothing,
and a run that has ended has exactly one of the three, unless it has none and
ended through the `catch` clause of the tick ('Process ended or
inaccessible'). -/
theorem sequential_run_single_trigger (C : Crypto) (F : NumFormat) (cfg : WatchConfig)
    (events : List Event) (h : nonOverlapping C F cfg Monitor.init events = true) :
    triggers (Monitor.run C F cfg Monitor.init events).effects ≤ 1 ∧
    killCalls (Monitor.run C F cfg Monitor.init events).effects ≤ 1 ∧
    (triggers (Monitor.run C F cfg Monitor.init events).effects = 1 →
      ∀ now alive,
        Monitor.step C F cfg (Monitor.run C F cfg Monitor.init events) (Event.fire now alive)
          = Monitor.run C F cfg Monitor.init events) ∧
    ((Monitor.run C F cfg Monitor.init events).ending ≠ none →
      triggers (Monitor.run C F cfg Monitor.init events).effects = 1 ∨
        (triggers (Monitor.run C F cfg Monitor.init events).effects = 0 ∧
          Effect.log Message.endedOrInaccessible
            ∈ (Monitor.run C F cfg Monitor.init events).effects)) := by
  have hinv := Monitor.run_seq C F cfg events Monitor.init Monitor.init_seq h
  obtain ⟨ht, hk, hcase, hended⟩ := hinv
  refine ⟨ht, hk, ?_, hended⟩
  intro h1 now alive
  cases hend : (Monitor.run C F cfg Monitor.init events).ending with
  | some en => simp [Monitor.step, hend]
  | none =>
    rcases hcase hend with ⟨_, h0, _⟩ | ⟨hact, _⟩
    · omega
    · simp [Monitor.step, hend, hact]

/-- Witness of `sequential_run_single_trigger`: Scenario B without a key, the
sample of the first tick over the CPU limit, the kill succeeding. -/
theorem sequential_run_single_trigger_witness :
    nonOverlapping toyCrypto sampleFormat sampleConfig Monitor.init thresholdRun = true ∧
    triggers (Monitor.run toyCrypto sampleFormat sampleConfig Monitor.init
        thresholdRun).effects ≤ 1 ∧
    killCalls (Monitor.run toyCrypto sampleFormat sampleConfig Monitor.init
        thresholdRun).effects ≤ 1 ∧
    (triggers (Monitor.run toyCrypto sampleFormat sampleConfig Monitor.init
        thresholdRun).effects = 1 →
      ∀ now alive,
        Monitor.step toyCrypto sampleFormat sampleConfig
            (Monitor.run toyCrypto sampleFormat sampleConfig Monitor.init thresholdRun)
            (Event.fire now alive)
          = Monitor.run toyCrypto sampleFormat sampleConfig Monitor.init thresholdRun) ∧
    ((Monitor.run toyCrypto sampleFormat sampleConfig Monitor.init thresholdRun).ending
        ≠ none →
      triggers (Monitor.run toyCrypto sampleFormat sampleConfig Monitor.init
          thresholdRun).effects = 1 ∨
        (triggers (Monitor.run toyCrypto sampleFormat sampleConfig Monitor.init
            thresholdRun).effects = 0 ∧
          Effect.log Message.endedOrInaccessible
            ∈ (Monitor.run toyCrypto sampleFormat sampleConfig Monitor.init
                thresholdRun).effects)) :=
  ⟨by decide,
    sequential_run_single_trigger toyCrypto sampleFormat sampleConfig thresholdRun
      (by decide)⟩

/-- C7 as stated fails, in two ways.  When a second tick fires while the first
still awaits its sample and both samples are over the CPU limit, two threshold
triggers occur and `killProcess` is called twice.  And a run without overlap
whose resource sampler fails ends, with exit code 0, with none of the three
outcomes. -/
theorem monitor_not_exactly_once :
    (triggers (Monitor.run toyCrypto sampleFormat sampleConfig Monitor.init
        overlappingRun).effects = 2 ∧
      killCalls (Monitor.run toyCrypto sampleFormat sampleConfig Monitor.init
        overlappingRun).effects = 2) ∧
    (nonOverlapping toyCrypto sampleFormat sampleConfig Monitor.init samplerErrorRun = true ∧
      (Monitor.run toyCrypto sampleFormat sampleConfig Monitor.init samplerErrorRun).ending
        = some (Ending.exited 0) ∧
      triggers (Monitor.run toyCrypto sampleFormat sampleConfig Monitor.init
        samplerErrorRun).effects = 0) := by
  decide

/-! ### A failed kill -/

/-- C4 on the code: in `watch` with a key, when `killProcess` rejects, no receipt
is written. After a timeout trigger the rejection is unhandled; after a
threshold trigger the `catch` clause of the tick exits with code 0. -/
theorem watch_failed_kill_writes_no_receipt :
    (Monitor.run toyCrypto sampleFormat keyedConfig Monitor.init
        [Event.fire 6000 true, Event.inspected 0 ['n'] ['c'] ['t'], Event.killed 0 false]).ending
      = some Ending.threw ∧
    (Monitor.run toyCrypto sampleFormat keyedConfig Monitor.init
        [Event.fire 6000 true, Event.inspected 0 ['n'] ['c'] ['t'], Event.killed 0 false]).effects
      = [Effect.log Message.timeoutExceeded, Effect.clearInterval,
          Effect.getProcessInfo (some 7), Effect.killProcess (some 7)] ∧
    (Monitor.run toyCrypto sampleFormat keyedConfig Monitor.init
        [Event.fire 1000 true, Event.sampled 0 (some { cpu := JSNum.fin 90, memory := JSNum.fin 1 }),
          Event.inspected 0 ['n'] ['c'] ['t'], Event.killed 0 false]).ending
      = some (Ending.exited 0) ∧
    (Monitor.run toyCrypto sampleFormat keyedConfig Monitor.init
        [Event.fire 1000 true, Event.sampled 0 (some { cpu := JSNum.fin 90, memory := JSNum.fin 1 }),
          Event.inspected 0 ['n'] ['c'] ['t'], Event.killed 0 false]).effects
      = [Effect.log Message.stats, Effect.log Message.cpuExceeded, Effect.clearInterval,
          Effect.getProcessInfo (some 7), Effect.killProcess (some 7),
          Effect.log Message.endedOrInaccessible, Effect.clearInterval, Effect.exit 0] := by
  decide

/-- The kill command records a failed kill: with a usable key and a rejected
`killProcess` it still writes a signed receipt, with status `KILL_FAILED`. -/
theorem kill_failed_is_recorded (C : Crypto) (optKey envKillswitchKey envReceiptKey : Option JSString)
    (pid : Option Int) (reason out address : JSString) (w : KillWorld)
    (hkey : truthy (resolveKey optKey envKillswitchKey envReceiptKey) = true)
    (haddr : C.address (keyString (resolveKey optKey envKillswitchKey envReceiptKey))
      = some address)
    (hkill : w.killOk = false) :
    Effect.writeFile out
        (stringifyObject2 (signedFields C
          (keyString (resolveKey optKey envKillswitchKey envReceiptKey)) address
          { pid := pid, name := w.name, cmd := w.cmd } reason address w.now
          "KILL_FAILED".toList))
      ∈ (killCommand C optKey envKillswitchKey envReceiptKey pid reason out w).effects ∧
    (killCommand C optKey envKillswitchKey envReceiptKey pid reason out w).ending
      = Ending.returned := by
  unfold killCommand
  simp only [setProp_status, hkey, haddr, hkill,
    signDeathReceipt_payloadFields C _ _ _ _ _ _ _ haddr]
  simp

/-! ### Strings: reading back what `quote` writes -/

theorem hex4_hexDigit : ∀ n, n < 32 →
    hex4 '0' '0' (hexDigit (n / 16)) (hexDigit (n % 16)) = some n := by
  decide

theorem char_eq_ofNat (c : Char) (n : Nat) (h : c.toNat = n) : c = Char.ofNat n := by
  rw [← h, Char.ofNat_toNat]

/-- Unfolding of `parseStringBody` on a two-character escape. -/
theorem parseStringBody_escape2 (e : Char) (rest : List Char) (h : e ≠ 'u') :
    parseStringBody ('\\' :: e :: rest)
      = match unescape e with
        | some ch =>
          match parseStringBody rest with
          | some (s, r) => some (ch :: s, r)
          | none => none
        | none => none := by
  rw [parseStringBody.eq_def]
  simp [h]

/-- Unfolding of `parseStringBody` on a `\u` escape. -/
theorem parseStringBody_escapeU (a b x y : Char) (rest : List Char) :
    parseStringBody ('\\' :: 'u' :: a :: b :: x :: y :: rest)
      = match hex4 a b x y with
        | some n =>
          if 55296 ≤ n ∧ n ≤ 57343 then none
          else
            match parseStringBody rest with
            | some (s, r) => some (Char.ofNat n :: s, r)
            | none => none
        | none => none := by
  rw [parseStringBody.eq_def]
  simp

/-- Unfolding of `parseStringBody` on an ordinary character. -/
theorem parseStringBody_plain (c : Char) (rest : List Char) (h1 : c ≠ '"') (h2 : c ≠ '\\')
    (h3 : ¬ c.toNat < 32) :
    parseStringBody (c :: rest)
      = match parseStringBody rest with
        | some (s, r) => some (c :: s, r)
        | none => none := by
  rw [parseStringBody.eq_def]
  simp [h1, h2, h3]

/-- Unfolding of `parseStringBody` on the closing quote. -/
theorem parseStringBody_quote (rest : List Char) :
    parseStringBody ('"' :: rest) = some ([], rest) := by
  rw [parseStringBody.eq_def]
  simp

/-- Reading the escape of one character yields that character. -/
theorem parseStringBody_escapeChar (c : Char) (rest : List Char) :
    parseStringBody (escapeChar c ++ rest)
      = match parseStringBody rest with
        | some (s, r) => some (c :: s, r)
        | none => none := by
  unfold escapeChar
  split
  · rename_i h; subst h
    simp [parseStringBody_escape2, unescape]
  split
  · rename_i h; subst h
    simp [parseStringBody_escape2, unescape]
  split
  · rename_i h
    have := char_eq_ofNat c 8 h; subst this
    simp [parseStringBody_escape2, unescape]
  split
  · rename_i h
    have := char_eq_ofNat c 12 h; subst this
    simp [parseStringBody_escape2, unescape]
  split
  · rename_i h
    have := char_eq_ofNat c 10 h; subst this
    simp [parseStringBody_escape2, unescape]
  split
  · rename_i h
    have := char_eq_ofNat c 13 h; subst this
    simp [parseStringBody_escape2, unescape]
  split
  · rename_i h
    have := char_eq_ofNat c 9 h; subst this
    simp [parseStringBody_escape2, unescape]
  split
  · rename_i h
    have hx := hex4_hexDigit c.toNat h
    have hc : Char.ofNat c.toNat = c := Char.ofNat_toNat c
    simp only [List.cons_append, List.nil_append]
    rw [parseStringBody_escapeU]
    simp only [hx]
    have h1 : ¬ (55296 ≤ c.toNat ∧ c.toNat ≤ 57343) := by omega
    simp [h1, hc]
  · rename_i h1 h2 h3 h4 h5 h6 h7 h8
    simp only [List.cons_append, List.nil_append]
    rw [parseStringBody_plain c rest h1 h2 h8]

/-- Reading an escaped string up to its closing quote yields the string. -/
theorem parseStringBody_escapeString (s : JSString) (rest : List Char) :
    parseStringBody (escapeString s ++ '"' :: rest) = some (s, rest) := by
  induction s with
  | nil => simp [escapeString, parseStringBody_quote]
  | cons c cs ih =>
    simp only [escapeString, List.append_assoc]
    rw [parseStringBody_escapeChar, ih]

/-- `quote` is injective, even when followed by further text. -/
theorem quote_append_inj (s t : JSString) (r1 r2 : List Char)
    (h : quote s ++ r1 = quote t ++ r2) : s = t ∧ r1 = r2 := by
  simp only [quote, List.cons_append, List.append_assoc, List.cons.injEq, true_and,
    List.nil_append] at h
  have h1 := parseStringBody_escapeString s r1
  rw [h, parseStringBody_escapeString] at h1
  simp only [Option.some.injEq, Prod.mk.injEq] at h1
  exact ⟨h1.1.symm, h1.2.symm⟩

/-! ### Numbers: reading back what `renderInt` writes -/

theorem digitChar_toNat : ∀ d, d < 10 → (digitChar d).toNat = 48 + d := by
  decide

theorem isDigit_digitChar (d : Nat) (h : d < 10) : isDigit (digitChar d) = true := by
  simp [isDigit, digitChar_toNat d h]
  omega

theorem natDigitsAux_append (fuel n : Nat) (acc : List Char) :
    natDigitsAux fuel n acc = natDigitsAux fuel n [] ++ acc := by
  induction fuel generalizing n acc with
  | zero => simp [natDigitsAux]
  | succ f ih =>
    simp only [natDigitsAux]
    split
    · simp
    · rw [ih (n / 10) (digitChar (n % 10) :: acc), ih (n / 10) [digitChar (n % 10)]]
      simp

/-- Reading the digits written for `n` continues the accumulator with `n`. -/
theorem parseDigits_natDigitsAux (fuel n acc : Nat) (rest : List Char) (hf : n < fuel) :
    parseDigits acc (natDigitsAux fuel n [] ++ rest)
      = parseDigits (acc * 10 ^ (natDigitsAux fuel n []).length + n) rest := by
  induction fuel generalizing n rest with
  | zero => omega
  | succ f ih =>
    simp only [natDigitsAux]
    split
    · rename_i hlt
      simp [parseDigits, isDigit_digitChar n hlt, digitChar_toNat n hlt]
      ring_nf
    · rename_i hge
      have hlt : n % 10 < 10 := Nat.mod_lt _ (by omega)
      rw [natDigitsAux_append, List.append_assoc]
      have hdiv : n / 10 < f := by omega
      rw [ih (n / 10) ([digitChar (n % 10)] ++ rest) hdiv]
      simp only [List.singleton_append, parseDigits, isDigit_digitChar _ hlt, if_true,
        digitChar_toNat _ hlt, List.length_append, List.length_singleton]
      congr 1
      have : n = 10 * (n / 10) + n % 10 := (Nat.div_add_mod n 10).symm
      rw [pow_succ]
      have h2 : 48 + n % 10 - 48 = n % 10 := by omega
      rw [h2]
      nlinarith [this]


/-- The text written for a number starts with a digit, a non-zero one for a
positive number. -/
theorem natDigitsAux_head (fuel n : Nat) (hf : n < fuel) :
    ∃ c cs, natDigitsAux fuel n [] = c :: cs ∧ isDigit c = true ∧ (0 < n → c ≠ '0') := by
  induction fuel generalizing n with
  | zero => omega
  | succ f ih =>
    simp only [natDigitsAux]
    split
    · rename_i hlt
      refine ⟨digitChar n, [], rfl, isDigit_digitChar n hlt, ?_⟩
      intro hpos hc
      have h1 := digitChar_toNat n hlt
      rw [hc] at h1
      have h2 : ('0' : Char).toNat = 48 := by decide
      omega
    · rename_i hge
      obtain ⟨c, cs, hc, hd, hnz⟩ := ih (n / 10) (by omega)
      rw [natDigitsAux_append, hc]
      exact ⟨c, cs ++ [digitChar (n % 10)], rfl, hd, fun _ => hnz (by omega)⟩

theorem parseDigits_end (n : Nat) (rest : List Char) (h : numberEnd rest) :
    parseDigits n rest = (n, rest) := by
  cases rest with
  | nil => rfl
  | cons c cs => simp [parseDigits, h.1]

theorem parseDigits_natDigits (n : Nat) (rest : List Char) (h : numberEnd rest) :
    parseDigits 0 (natDigits n ++ rest) = (n, rest) := by
  unfold natDigits
  rw [parseDigits_natDigitsAux (n + 1) n 0 rest (by omega)]
  simp [parseDigits_end _ _ h]

theorem isDigit_ne (c d : Char) (h : isDigit c = true) (hd : isDigit d = false) : c ≠ d := by
  intro hcd
  rw [hcd, hd] at h
  cases h

/-- Reading a positive number written by `natDigits`. -/
theorem parseNumber_natDigits (n : Nat) (rest : List Char) (h : numberEnd rest) :
    parseNumber (natDigits n ++ rest) = some ((n : Int), rest) := by
  obtain ⟨c, cs, hc, hd, hnz⟩ := natDigitsAux_head (n + 1) n (by omega)
  have hval := parseDigits_natDigits n rest h
  unfold natDigits at hval ⊢
  rw [hc] at hval ⊢
  have hminus : c ≠ '-' := isDigit_ne c '-' hd (by decide)
  rcases Nat.eq_zero_or_pos n with h0 | hpos
  · subst h0
    have : c = '0' ∧ cs = [] := by
      simp [natDigitsAux, digitChar] at hc
      exact ⟨hc.1.symm, hc.2⟩
    obtain ⟨rfl, rfl⟩ := this
    cases rest with
    | nil => simp [parseNumber, isDigit]
    | cons r rs =>
      obtain ⟨_, h1, h2, h3⟩ := h
      simp [parseNumber, isDigit, h1, h2, h3]
  · have hne := hnz hpos
    cases rest with
    | nil =>
      simp only [List.append_nil] at hval
      simp [parseNumber, hminus, hd, hne, hval]
    | cons r rs =>
      obtain ⟨_, h1, h2, h3⟩ := h
      simp only [List.cons_append] at hval
      simp [parseNumber, hminus, hd, hne, hval, h1, h2, h3]

/-- Reading a number written by `renderInt`. -/
theorem parseNumber_renderInt (n : Int) (rest : List Char) (h : numberEnd rest) :
    parseNumber (renderInt n ++ rest) = some (n, rest) := by
  cases n with
  | ofNat m => exact parseNumber_natDigits m rest h
  | negSucc m =>
    have hpos := parseNumber_natDigits (m + 1) rest h
    obtain ⟨c, cs, hc, hd, hnz⟩ := natDigitsAux_head (m + 1 + 1) (m + 1) (by omega)
    have hval := parseDigits_natDigits (m + 1) rest h
    unfold natDigits at hval
    rw [hc] at hval
    have hne := hnz (by omega)
    simp only [renderInt, natDigits, hc, List.cons_append]
    cases rest with
    | nil =>
      simp only [List.append_nil] at hval
      simp [parseNumber, hd, hne, hval, Int.negSucc_eq]
    | cons r rs =>
      obtain ⟨_, h1, h2, h3⟩ := h
      simp only [List.cons_append] at hval
      simp [parseNumber, hd, hne, hval, h1, h2, h3, Int.negSucc_eq]

/-! ### Reading back a pretty-printed receipt -/

theorem skipWs_space (cs : List Char) : skipWs (' ' :: cs) = skipWs cs := by
  simp [skipWs, isWs]

theorem skipWs_newline (cs : List Char) : skipWs ('\n' :: cs) = skipWs cs := by
  simp [skipWs, isWs]

theorem skipWs_quote (s : JSString) (rest : List Char) :
    skipWs (quote s ++ rest) = quote s ++ rest := by
  simp [quote, skipWs, isWs]

theorem skipWs_comma (cs : List Char) : skipWs (',' :: cs) = ',' :: cs := by
  simp [skipWs, isWs]

theorem skipWs_colon (cs : List Char) : skipWs (':' :: cs) = ':' :: cs := by
  simp [skipWs, isWs]

theorem skipWs_lbrace (cs : List Char) :
    skipWs (Char.ofNat 123 :: cs) = Char.ofNat 123 :: cs := by
  simp [skipWs, isWs]

theorem skipWs_rbrace (cs : List Char) :
    skipWs (Char.ofNat 125 :: cs) = Char.ofNat 125 :: cs := by
  simp [skipWs, isWs]

theorem skipWs_nil : skipWs [] = [] := rfl

/-- Reading a string value. -/
theorem parseValue_quote (f : Nat) (s : JSString) (rest : List Char) :
    parseValue (f + 1) (quote s ++ rest) = some (JSVal.str s, rest) := by
  simp only [quote, List.cons_append, List.append_assoc, List.nil_append]
  rw [parseValue]
  simp [parseStringBody_escapeString]

/-- Reading an object whose first member starts on the next line, two spaces in. -/
theorem parseValue_object2 (f : Nat) (k : JSString) (rest : List Char) :
    parseValue (f + 1) (Char.ofNat 123 :: '\n' :: ' ' :: ' ' :: (quote k ++ rest))
      = parseMembers f [] (quote k ++ rest) := by
  rw [parseValue]
  simp [skipWs, isWs, quote]

/-- Reading an object whose first member starts on the next line, four spaces in. -/
theorem parseValue_object4 (f : Nat) (k : JSString) (rest : List Char) :
    parseValue (f + 1) (Char.ofNat 123 :: '\n' :: ' ' :: ' ' :: ' ' :: ' ' :: (quote k ++ rest))
      = parseMembers f [] (quote k ++ rest) := by
  rw [parseValue]
  simp [skipWs, isWs, quote]

theorem rbrace_ne_comma : (Char.ofNat 125 = ',') = False := by
  simp

theorem rbrace_toNat : ((Char.ofNat 125).toNat = 125) = True := by
  simp

/-- Reading one member: the name, the colon, the value, and what follows it. -/
theorem parseMembers_member (f : Nat) (acc : JSObject) (k : JSString) (rest : List Char) :
    parseMembers (f + 1) acc (quote k ++ ':' :: ' ' :: rest)
      = match parseValue f (skipWs rest) with
        | none => none
        | some (v, r3) =>
          match skipWs r3 with
          | [] => none
          | c3 :: r4 =>
            if c3 = ',' then parseMembers f (setProp acc k v) (skipWs r4)
            else if c3.toNat = 125 then some (JSVal.obj (setProp acc k v), r4)
            else none := by
  simp only [quote, List.cons_append, List.append_assoc, List.nil_append]
  rw [parseMembers]
  simp [parseStringBody_escapeString, skipWs_colon, skipWs_space]

theorem renderInt_head (n : Int) :
    ∃ c cs, renderInt n = c :: cs ∧ (c = '-' ∨ isDigit c = true) := by
  cases n with
  | ofNat m =>
    obtain ⟨c, cs, hc, hd, _⟩ := natDigitsAux_head (m + 1) m (by omega)
    exact ⟨c, cs, hc, Or.inr hd⟩
  | negSucc m => exact ⟨'-', _, rfl, Or.inl rfl⟩

theorem numberStart_ne (c : Char) (h : c = '-' ∨ isDigit c = true) :
    c ≠ '"' ∧ c.toNat ≠ 123 ∧ c ≠ '[' ∧ c ≠ 't' ∧ c ≠ 'f' ∧ c ≠ 'n' ∧ isWs c = false := by
  rcases h with rfl | h
  · decide
  · simp only [isDigit, Bool.and_eq_true, decide_eq_true_eq] at h
    refine ⟨?_, ?_, ?_, ?_, ?_, ?_, ?_⟩
    · rintro rfl; revert h; decide
    · omega
    · rintro rfl; revert h; decide
    · rintro rfl; revert h; decide
    · rintro rfl; revert h; decide
    · rintro rfl; revert h; decide
    · simp only [isWs, Bool.or_eq_false_iff, decide_eq_false_iff_not]
      refine ⟨⟨⟨?_, ?_⟩, ?_⟩, ?_⟩
      · rintro rfl; revert h; decide
      · omega
      · omega
      · omega

/-- Reading the PID value of a receipt, which is followed by a comma. -/
theorem parseValue_pidText (f : Nat) (pid : Option Int) (rest : List Char) :
    parseValue (f + 1) (pidText pid ++ ',' :: rest) = some (parsedPid pid, ',' :: rest) := by
  cases pid with
  | none =>
    simp only [pidText, parsedPid]
    rw [show "null".toList ++ ',' :: rest = 'n' :: 'u' :: 'l' :: 'l' :: ',' :: rest from rfl]
    rw [parseValue]
    simp [parseLiteral]
  | some n =>
    simp only [pidText, parsedPid]
    have hnum := parseNumber_renderInt n (',' :: rest) (by simp [numberEnd, isDigit])
    obtain ⟨c, cs, hc, hstart⟩ := renderInt_head n
    obtain ⟨h1, h2, h3, h4, h5, h6, _⟩ := numberStart_ne c hstart
    rw [hc] at hnum ⊢
    simp only [List.cons_append] at hnum ⊢
    rw [parseValue]
    simp [h1, h2, h3, h4, h5, h6, hnum]

theorem skipWs_pidText (pid : Option Int) (rest : List Char) :
    skipWs (pidText pid ++ rest) = pidText pid ++ rest := by
  cases pid with
  | none => simp [pidText, skipWs, isWs]
  | some n =>
    obtain ⟨c, cs, hc, hstart⟩ := renderInt_head n
    have h := (numberStart_ne c hstart).2.2.2.2.2.2
    simp [pidText, hc, skipWs, h]

theorem serProperty_pidValue (gap indent : List Char) (pid : Option Int) :
    serProperty gap indent (pidValue pid) = some (pidText pid) := by
  cases pid <;> simp [pidValue, pidText, serProperty]

theorem serProperty_parsedPid (gap indent : List Char) (pid : Option Int) :
    serProperty gap indent (parsedPid pid) = some (pidText pid) := by
  cases pid <;> simp [parsedPid, pidText, serProperty]

/-- Reading back the pretty-printed text of a receipt: the same eight fields, with
a `NaN` PID read as `null`. -/
theorem parseValue_receipt (f : Nat) (pid : Option Int)
    (name cmd reason now killer status signer signature : JSString) :
    parseValue (f + 12) (stringifyObject2
        (receiptObject (pidValue pid) name cmd reason now killer status signer signature))
      = some (JSVal.obj
          (receiptObject (parsedPid pid) name cmd reason now killer status signer signature),
          []) := by
  simp only [stringifyObject2, receiptObject, serMembers, serProperty, serProperty_pidValue,
    assemble, List.isEmpty_cons, Bool.false_eq_true, if_false, List.intercalate,
    List.intersperse, List.flatten, List.append_assoc, List.cons_append, List.nil_append,
    List.append_nil]
  simp only [parseValue_object2, parseValue_object4, parseMembers_member, parseValue_quote,
    parseValue_pidText, skipWs_space, skipWs_newline, skipWs_quote, skipWs_comma, skipWs_lbrace,
    skipWs_rbrace, skipWs_pidText, skipWs_nil, rbrace_ne_comma, rbrace_toNat, if_true, if_false]
  rfl

/-- The pretty-printed text of a receipt is longer than the fuel its reading needs. -/
theorem receipt_text_length (pid : JSVal)
    (name cmd reason now killer status signer signature : JSString) :
    11 ≤ (stringifyObject2
        (receiptObject pid name cmd reason now killer status signer signature)).length := by
  simp only [stringifyObject2, receiptObject, serMembers, serProperty,
    assemble, List.isEmpty_cons, Bool.false_eq_true, if_false, List.intercalate,
    List.intersperse, List.flatten, List.append_assoc, List.cons_append, List.nil_append,
    List.append_nil, quote, List.length_cons, List.length_append]
  omega

/-- `JSON.parse` reads back the file written for a receipt. -/
theorem JSON_parse_receipt (pid : Option Int)
    (name cmd reason now killer status signer signature : JSString) :
    JSON_parse (stringifyObject2
        (receiptObject (pidValue pid) name cmd reason now killer status signer signature))
      = some (JSVal.obj
          (receiptObject (parsedPid pid) name cmd reason now killer status signer signature)) := by
  obtain ⟨n, hn⟩ := Nat.exists_eq_add_of_le' (receipt_text_length (pidValue pid) name cmd
    reason now killer status signer signature)
  have hws : skipWs (stringifyObject2
      (receiptObject (pidValue pid) name cmd reason now killer status signer signature))
      = stringifyObject2
        (receiptObject (pidValue pid) name cmd reason now killer status signer signature) := by
    simp [stringifyObject2, assemble, receiptObject, serMembers, serProperty, skipWs, isWs]
  unfold JSON_parse
  rw [hws, hn, show n + 11 + 1 = n + 12 from rfl, parseValue_receipt]
  simp [skipWs]

/-! ### Signing and verifying -/

theorem signedFields_eq_receiptObject (C : Crypto) (key address : JSString) (info : ProcessInfo)
    (reason killer now status : JSString) :
    signedFields C key address info reason killer now status
      = receiptObject (pidValue info.pid) info.name info.cmd reason now killer status address
          (C.signMessage key (stringifyObject (payloadFields info reason killer now status))) := by
  rfl

/-- The payload verify rebuilds from a receipt object is the serialisation of its
first six fields. -/
theorem verifyPayload_receiptObject (pid : JSVal)
    (name cmd reason now killer status signer signature : JSString) :
    verifyPayload (JSVal.obj
        (receiptObject pid name cmd reason now killer status signer signature))
      = stringifyObject (payloadObject pid name cmd reason now killer status) := by
  rfl

/-- A `NaN` PID and the `null` read back for it serialise alike. -/
theorem stringifyObject_parsedPid (pid : Option Int)
    (name cmd reason now killer status : JSString) :
    stringifyObject (payloadObject (parsedPid pid) name cmd reason now killer status)
      = stringifyObject (payloadObject (pidValue pid) name cmd reason now killer status) := by
  simp only [stringifyObject, payloadObject, serMembers, serProperty, serProperty_parsedPid,
    serProperty_pidValue]

/-- The signed payload determines the reason. -/
theorem payload_reason_inj (pid : Option Int) (name cmd reason reason2 killer now status : JSString)
    (h : stringifyObject (payloadObject (pidValue pid) name cmd reason now killer status)
      = stringifyObject (payloadObject (pidValue pid) name cmd reason2 now killer status)) :
    reason = reason2 := by
  simp only [stringifyObject, payloadObject, serMembers, serProperty, serProperty_pidValue,
    assemble, List.isEmpty_cons, List.isEmpty_nil, Bool.false_eq_true, if_false, if_true,
    List.intercalate,
    List.intersperse, List.flatten, List.append_assoc, List.cons_append, List.nil_append,
    List.append_nil, List.cons.injEq, true_and, List.append_cancel_left_eq] at h
  exact (quote_append_inj _ _ _ _ h).1

theorem toStringThrows_pidValue (pid : Option Int) : toStringThrows (pidValue pid) = false := by
  cases pid <;> rfl

theorem toStringThrows_parsedPid (pid : Option Int) :
    toStringThrows (parsedPid pid) = false := by
  cases pid <;> rfl

/-- The run of verify on a receipt object, by whether the recovered address
equals the stored signer up to case. -/
theorem verifyReceipt_receiptObject (C : Crypto) (toLowerCase : JSString → JSString) (pid : JSVal)
    (name cmd reason now killer status signer signature recovered : JSString)
    (hpid : toStringThrows pid = false)
    (hrec : C.verifyMessage
        (stringifyObject (payloadObject pid name cmd reason now killer status))
        (JSVal.str signature) = some recovered) :
    verifyReceipt C toLowerCase (some (JSVal.obj
        (receiptObject pid name cmd reason now killer status signer signature)))
      = if toLowerCase recovered = toLowerCase signer then
          { effects := [Effect.log Message.valid, Effect.log Message.killedLine,
              Effect.log Message.reasonLine, Effect.log Message.timeLine,
              Effect.log Message.signedByLine, Effect.log Message.statusLine],
            ending := Ending.returned }
        else { effects := [Effect.log Message.invalid, Effect.exit 1],
               ending := Ending.exited 1 } := by
  have hp := verifyPayload_receiptObject pid name cmd reason now killer status signer signature
  have hsig : getProp (JSVal.obj
      (receiptObject pid name cmd reason now killer status signer signature))
      "signature".toList = JSVal.str signature := rfl
  have hsigner : getProp (JSVal.obj
      (receiptObject pid name cmd reason now killer status signer signature))
      "signer".toList = JSVal.str signer := rfl
  have hsum : validSummary (JSVal.obj
      (receiptObject pid name cmd reason now killer status signer signature))
      = { effects := [Effect.log Message.valid, Effect.log Message.killedLine,
            Effect.log Message.reasonLine, Effect.log Message.timeLine,
            Effect.log Message.signedByLine, Effect.log Message.statusLine],
          ending := Ending.returned } := by
    have h1 : getProp (JSVal.obj [("pid".toList, pid), ("name".toList, JSVal.str name),
        ("cmd".toList, JSVal.str cmd)]) "pid".toList = pid := rfl
    simp only [validSummary, receiptObject, getProp, List.find?, decide_True, decide_False,
      h1]
    simp [getProp, hpid, toStringThrows]
  simp only [verifyReceipt, hp, hsig, hsigner, hrec, hsum]


/-- The toy scheme recovers the address of the signing key from a message and
its signature. -/
theorem toyCrypto_recovers (k a m : JSString) (h : toyCrypto.address k = some a) :
    toyCrypto.verifyMessage m (JSVal.str (toyCrypto.signMessage k m)) = some a := by
  simp only [toyCrypto] at h ⊢
  split at h
  · cases h
  · simpa using h

/-- In the toy scheme recovery over another message yields another address. -/
theorem toyCrypto_rejects (k m m2 : JSString) (h : m2 ≠ m) :
    ∃ r, toyCrypto.verifyMessage m2 (JSVal.str (toyCrypto.signMessage k m)) = some r ∧
      asciiLower r ≠ asciiLower ['a'] := by
  refine ⟨['b'], ?_, by decide⟩
  simp only [toyCrypto]
  rw [if_neg (fun hc => h hc.symm)]

/-- C1: for a receipt built by `createDeathReceipt`, given its status and signed
by `signDeathReceipt`, the payload verify rebuilds by dropping `signer` and
`signature` serialises to the string that was signed, both from the signed
object and from the pretty-printed file parsed back; so, when recovery from a
message and its signature yields the address of the key, the recovered address
is the stored signer and verify reports VALID. -/
theorem sign_verify_round_trip (C : Crypto) (toLowerCase : JSString → JSString)
    (info : ProcessInfo) (reason killer now status key address : JSString)
    (haddr : C.address key = some address)
    (hscheme : ∀ k a m, C.address k = some a →
      C.verifyMessage m (JSVal.str (C.signMessage k m)) = some a) :
    ∃ s parsed,
      signDeathReceipt C
          (setProp (createDeathReceipt info reason killer now) "status".toList
            (JSVal.str status)) key = some s ∧
      verifyPayload (JSVal.obj s)
        = stringifyObject (setProp (createDeathReceipt info reason killer now)
            "status".toList (JSVal.str status)) ∧
      JSON_parse (stringifyObject2 s) = some parsed ∧
      verifyPayload parsed
        = stringifyObject (setProp (createDeathReceipt info reason killer now)
            "status".toList (JSVal.str status)) ∧
      getProp parsed "signer".toList = JSVal.str address ∧
      C.verifyMessage (verifyPayload parsed) (getProp parsed "signature".toList)
        = some address ∧
      verifyCommand C toLowerCase (stringifyObject2 s)
        = { effects := [Effect.log Message.valid, Effect.log Message.killedLine,
              Effect.log Message.reasonLine, Effect.log Message.timeLine,
              Effect.log Message.signedByLine, Effect.log Message.statusLine],
            ending := Ending.returned } := by
  have hsigned := signDeathReceipt_payloadFields C info reason killer now status key address haddr
  have hparse := JSON_parse_receipt info.pid info.name info.cmd reason now killer status address
    (C.signMessage key (stringifyObject (payloadFields info reason killer now status)))
  have hpay : stringifyObject
      (payloadObject (parsedPid info.pid) info.name info.cmd reason now killer status)
      = stringifyObject (payloadFields info reason killer now status) :=
    stringifyObject_parsedPid info.pid info.name info.cmd reason now killer status
  have hrec := hscheme key address
    (stringifyObject (payloadFields info reason killer now status)) haddr
  refine ⟨signedFields C key address info reason killer now status,
    JSVal.obj (receiptObject (parsedPid info.pid) info.name info.cmd reason now killer status
      address (C.signMessage key (stringifyObject (payloadFields info reason killer now status)))),
    ?_, ?_, ?_, ?_, ?_, ?_, ?_⟩
  · rw [setProp_status]
    exact hsigned
  · rfl
  · exact hparse
  · rw [verifyPayload_receiptObject, hpay]
    rfl
  · rfl
  · rw [verifyPayload_receiptObject, hpay]
    exact hrec
  · rw [signedFields_eq_receiptObject]
    unfold verifyCommand
    rw [hparse, verifyReceipt_receiptObject C toLowerCase _ _ _ _ _ _ _ _ _ address
      (toStringThrows_parsedPid info.pid) (by rw [hpay]; exact hrec)]
    simp

/-- Witness of `sign_verify_round_trip` in the toy scheme. -/
theorem sign_verify_round_trip_witness :
    ∃ s parsed,
      signDeathReceipt toyCrypto
          (setProp (createDeathReceipt sampleInfo "manual kill".toList ['a']
            "2025-01-01T00:00:00.000Z".toList) "status".toList
            (JSVal.str "KILLED".toList)) ['k'] = some s ∧
      verifyPayload (JSVal.obj s)
        = stringifyObject (setProp (createDeathReceipt sampleInfo "manual kill".toList ['a']
            "2025-01-01T00:00:00.000Z".toList) "status".toList (JSVal.str "KILLED".toList)) ∧
      JSON_parse (stringifyObject2 s) = some parsed ∧
      verifyPayload parsed
        = stringifyObject (setProp (createDeathReceipt sampleInfo "manual kill".toList ['a']
            "2025-01-01T00:00:00.000Z".toList) "status".toList (JSVal.str "KILLED".toList)) ∧
      getProp parsed "signer".toList = JSVal.str ['a'] ∧
      toyCrypto.verifyMessage (verifyPayload parsed) (getProp parsed "signature".toList)
        = some ['a'] ∧
      verifyCommand toyCrypto asciiLower (stringifyObject2 s)
        = { effects := [Effect.log Message.valid, Effect.log Message.killedLine,
              Effect.log Message.reasonLine, Effect.log Message.timeLine,
              Effect.log Message.signedByLine, Effect.log Message.statusLine],
            ending := Ending.returned } :=
  sign_verify_round_trip toyCrypto asciiLower sampleInfo "manual kill".toList ['a']
    "2025-01-01T00:00:00.000Z".toList "KILLED".toList ['k'] ['a'] rfl toyCrypto_recovers

/-- C5: for a receipt produced by build and sign and a reason different from the
signed one, the payload verify rebuilds from the receipt with the reason
replaced differs from the signed payload; so, when recovery over another
message than the signed one yields an address other than the signer's, the
recovered address differs from the stored signer and verify reports INVALID
with exit code 1, on the tampered object and on its file. -/
theorem tampered_reason_rejected (C : Crypto) (toLowerCase : JSString → JSString)
    (info : ProcessInfo) (reason reason2 killer now status key address : JSString)
    (haddr : C.address key = some address)
    (hne : reason2 ≠ reason)
    (hscheme : ∀ m m2, m2 ≠ m →
      ∃ r, C.verifyMessage m2 (JSVal.str (C.signMessage key m)) = some r ∧
        toLowerCase r ≠ toLowerCase address) :
    ∃ s,
      signDeathReceipt C
          (setProp (createDeathReceipt info reason killer now) "status".toList
            (JSVal.str status)) key = some s ∧
      verifyPayload (JSVal.obj (setProp s "reason".toList (JSVal.str reason2)))
        ≠ stringifyObject (setProp (createDeathReceipt info reason killer now)
            "status".toList (JSVal.str status)) ∧
      (∃ r, C.verifyMessage
            (verifyPayload (JSVal.obj (setProp s "reason".toList (JSVal.str reason2))))
            (getProp (JSVal.obj (setProp s "reason".toList (JSVal.str reason2)))
              "signature".toList) = some r ∧
          r ≠ address ∧
          getProp (JSVal.obj (setProp s "reason".toList (JSVal.str reason2))) "signer".toList
            = JSVal.str address) ∧
      verifyReceipt C toLowerCase
          (some (JSVal.obj (setProp s "reason".toList (JSVal.str reason2))))
        = { effects := [Effect.log Message.invalid, Effect.exit 1],
            ending := Ending.exited 1 } ∧
      verifyCommand C toLowerCase
          (stringifyObject2 (setProp s "reason".toList (JSVal.str reason2)))
        = { effects := [Effect.log Message.invalid, Effect.exit 1],
            ending := Ending.exited 1 } := by
  have hsigned := signDeathReceipt_payloadFields C info reason killer now status key address haddr
  have htam : setProp (signedFields C key address info reason killer now status)
      "reason".toList (JSVal.str reason2)
      = receiptObject (pidValue info.pid) info.name info.cmd reason2 now killer status address
          (C.signMessage key (stringifyObject (payloadFields info reason killer now status))) :=
    rfl
  have hdiff : stringifyObject
      (payloadObject (pidValue info.pid) info.name info.cmd reason2 now killer status)
      ≠ stringifyObject (payloadFields info reason killer now status) := by
    intro h
    exact hne (payload_reason_inj info.pid info.name info.cmd reason2 reason killer now status h)
  obtain ⟨r, hr, hlow⟩ := hscheme (stringifyObject (payloadFields info reason killer now status))
    (stringifyObject
      (payloadObject (pidValue info.pid) info.name info.cmd reason2 now killer status)) hdiff
  have hpay := stringifyObject_parsedPid info.pid info.name info.cmd reason2 now killer status
  refine ⟨signedFields C key address info reason killer now status, ?_, ?_, ?_, ?_, ?_⟩
  · rw [setProp_status]
    exact hsigned
  · rw [htam, verifyPayload_receiptObject, setProp_status]
    exact hdiff
  · refine ⟨r, ?_, ?_, ?_⟩
    · rw [htam, verifyPayload_receiptObject]
      exact hr
    · intro h
      exact hlow (by rw [h])
    · rw [htam]
      rfl
  · rw [htam, verifyReceipt_receiptObject C toLowerCase _ _ _ _ _ _ _ _ _ r
      (toStringThrows_pidValue info.pid) hr, if_neg hlow]
  · rw [htam]
    unfold verifyCommand
    rw [JSON_parse_receipt, verifyReceipt_receiptObject C toLowerCase _ _ _ _ _ _ _ _ _ r
      (toStringThrows_parsedPid info.pid) (by rw [hpay]; exact hr), if_neg hlow]

/-- Witness of `tampered_reason_rejected` in the toy scheme: the reason
`manual kill` altered to `policy`. -/
theorem tampered_reason_rejected_witness :
    ∃ s,
      signDeathReceipt toyCrypto
          (setProp (createDeathReceipt sampleInfo "manual kill".toList ['a']
            "2025-01-01T00:00:00.000Z".toList) "status".toList
            (JSVal.str "KILLED".toList)) ['k'] = some s ∧
      verifyPayload (JSVal.obj (setProp s "reason".toList (JSVal.str "policy".toList)))
        ≠ stringifyObject (setProp (createDeathReceipt sampleInfo "manual kill".toList ['a']
            "2025-01-01T00:00:00.000Z".toList) "status".toList (JSVal.str "KILLED".toList)) ∧
      (∃ r, toyCrypto.verifyMessage
            (verifyPayload (JSVal.obj (setProp s "reason".toList (JSVal.str "policy".toList))))
            (getProp (JSVal.obj (setProp s "reason".toList (JSVal.str "policy".toList)))
              "signature".toList) = some r ∧
          r ≠ ['a'] ∧
          getProp (JSVal.obj (setProp s "reason".toList (JSVal.str "policy".toList)))
            "signer".toList = JSVal.str ['a']) ∧
      verifyReceipt toyCrypto asciiLower
          (some (JSVal.obj (setProp s "reason".toList (JSVal.str "policy".toList))))
        = { effects := [Effect.log Message.invalid, Effect.exit 1],
            ending := Ending.exited 1 } ∧
      verifyCommand toyCrypto asciiLower
          (stringifyObject2 (setProp s "reason".toList (JSVal.str "policy".toList)))
        = { effects := [Effect.log Message.invalid, Effect.exit 1],
            ending := Ending.exited 1 } :=
  tampered_reason_rejected toyCrypto asciiLower sampleInfo "manual kill".toList
    "policy".toList ['a'] "2025-01-01T00:00:00.000Z".toList "KILLED".toList ['k'] ['a'] rfl
    (by decide) (toyCrypto_rejects ['k'])

end Killswitch
